import Mathlib

/-!
Verification of the UTS exam-scheduling repository.

This file gives a shallow embedding of the scheduling scripts
(`generate_schedule.py`, `check_conflicts.py`) and proves or refutes the
frozen claims about them.

Python strings are modelled as `List Char` (`Str`).  Python `datetime.date`
values are modelled by `PyDate` (year/month/day) with the proleptic-Gregorian
ordinal (`datetime.date.toordinal`) used for comparison and weekday;
`datetime.datetime` values, whose time components always come from
`datetime.time(h, m)`, are modelled by `PyDate` plus a minute-of-day.
-/

/-- Strings are modelled as lists of characters. -/
abbrev Str := List Char

/-- The characters stripped by Python `str.strip()` (space, tab, newline,
carriage return, vertical tab, form feed). -/
def isPySpace (c : Char) : Bool :=
  c.toNat = 32 || c.toNat = 9 || c.toNat = 10 || c.toNat = 13 || c.toNat = 11 || c.toNat = 12

/-- Python `str.strip()`. -/
def pyStrip (s : Str) : Str :=
  ((s.dropWhile isPySpace).reverse.dropWhile isPySpace).reverse

/-- Python `str.lower()` (the scripts only apply it to ASCII data). -/
def pyLower (s : Str) : Str := s.map Char.toLower

/-- Python `str.upper()` (the scripts only apply it to ASCII data). -/
def pyUpper (s : Str) : Str := s.map Char.toUpper

/-- Python `s.endswith(suf)`. -/
def pyEndsWith (s suf : Str) : Bool := List.isSuffixOf suf s

/-- Python `s.replace(" ", "").replace("\t", "")`. -/
def removeSpaceTab (s : Str) : Str := s.filter (fun c => !(c.toNat = 32 || c.toNat = 9))

def dashChar : Char := Char.ofNat 45

def slashChar : Char := Char.ofNat 47

def dotChar : Char := Char.ofNat 46

def zeroChar : Char := Char.ofNat 48

/-- Python `s.split(sep)` for a one-character separator. -/
def splitOnChar (sep : Char) (s : Str) : List Str :=
  s.foldr
    (fun c acc =>
      if c = sep then [] :: acc
      else
        match acc with
        | h :: t => (c :: h) :: t
        | [] => [[c]])
    [[]]

def isDigitCh (c : Char) : Bool := 48 ≤ c.toNat && c.toNat ≤ 57

def digitsToNat (s : Str) : Nat := s.foldl (fun a c => a * 10 + (c.toNat - 48)) 0

/-- Python `int(s)` on a string: strips whitespace, allows an optional sign
followed by a nonempty digit string.  (Underscores between digits, which
CPython also accepts, never occur in this repository's data and are not
modelled.) -/
def parseIntOpt (s : Str) : Option Int :=
  let t := pyStrip s
  match t with
  | [] => none
  | c :: rest =>
    if c.toNat = 43 then
      if rest ≠ [] ∧ rest.all isDigitCh then some (Int.ofNat (digitsToNat rest)) else none
    else if c.toNat = 45 then
      if rest ≠ [] ∧ rest.all isDigitCh then some (-(Int.ofNat (digitsToNat rest))) else none
    else if t.all isDigitCh then some (Int.ofNat (digitsToNat t))
    else none

/-- A `strptime` numeric field of between `minLen` and `maxLen` digits. -/
def parseFieldNat (minLen maxLen : Nat) (s : Str) : Option Nat :=
  if minLen ≤ s.length ∧ s.length ≤ maxLen ∧ s.all isDigitCh ∧ s ≠ [] then
    some (digitsToNat s)
  else none

/-- Model of `datetime.date` (a year/month/day triple). -/
structure PyDate where
  year : Nat
  month : Nat
  day : Nat
deriving DecidableEq

def isLeapYear (y : Nat) : Bool := (y % 4 == 0 && y % 100 != 0) || y % 400 == 0

def daysInMonth (y m : Nat) : Nat :=
  if m = 2 then (if isLeapYear y then 29 else 28)
  else if m = 4 ∨ m = 6 ∨ m = 9 ∨ m = 11 then 30
  else 31

def cumDaysBeforeMonth (m : Nat) : Nat :=
  [0, 31, 59, 90, 120, 151, 181, 212, 243, 273, 304, 334].getD (m - 1) 0

/-- `datetime.date.toordinal`: day 1 is January 1 of year 1 (proleptic
Gregorian). -/
def PyDate.toOrdinal (d : PyDate) : Nat :=
  (d.year - 1) * 365 + (d.year - 1) / 4 - (d.year - 1) / 100 + (d.year - 1) / 400
    + cumDaysBeforeMonth d.month
    + (if 2 < d.month ∧ isLeapYear d.year then 1 else 0)
    + d.day

/-- `datetime.date.weekday`: Monday is 0.  January 1 of year 1 (ordinal 1) is
a Monday. -/
def PyDate.weekday (d : PyDate) : Nat := (d.toOrdinal + 6) % 7

/-- The validation performed by the `datetime.date` constructor. -/
def validDate (y m d : Nat) : Bool :=
  1 ≤ y && y ≤ 9999 && 1 ≤ m && m ≤ 12 && 1 ≤ d && d ≤ daysInMonth y m

/-- Model of `datetime.datetime` as produced by
`datetime.combine(date, time(h, m))`: a date plus a minute-of-day. -/
structure PyDateTime where
  date : PyDate
  minute : Nat
deriving DecidableEq

/-- Absolute minute count; datetime comparisons in the scripts are
comparisons of these values. -/
def PyDateTime.abs (t : PyDateTime) : Nat := t.date.toOrdinal * 1440 + t.minute

/-- The interval-overlap test `not (e1 <= s2 or s1 >= e2)` used by both
scripts. -/
def intervalsOverlap (i1 i2 : PyDateTime × PyDateTime) : Bool :=
  !(decide (i1.2.abs ≤ i2.1.abs) || decide (i2.2.abs ≤ i1.1.abs))

/-- The month abbreviations matched by `strptime`'s `%b` directive. -/
def monthAbbrevs : List Str :=
  [(r"Jan").data, (r"Feb").data, (r"Mar").data, (r"Apr").data, (r"May").data, (r"Jun").data,
   (r"Jul").data, (r"Aug").data, (r"Sep").data, (r"Oct").data, (r"Nov").data, (r"Dec").data]

/-- `%b` matches a month abbreviation case-insensitively. -/
def monthFromAbbrev (s : Str) : Option Nat :=
  match monthAbbrevs.findIdx? (fun a => pyLower a == pyLower s) with
  | some i => some (i + 1)
  | none => none

/-- `strptime(s, "%d-%b-%y")`.  `%d` matches one or two digits, `%y` exactly
two; `%y` maps 0..68 to 2000..2068 and 69..99 to 1969..1999. -/
def parseDateFmt1 (s : Str) : Option PyDate :=
  match splitOnChar dashChar s with
  | [ds, bs, ys] =>
    match parseFieldNat 1 2 ds, monthFromAbbrev bs, parseFieldNat 2 2 ys with
    | some d, some m, some yy =>
      let y := if yy ≤ 68 then 2000 + yy else 1900 + yy
      if validDate y m d then some ⟨y, m, d⟩ else none
    | _, _, _ => none
  | _ => none

/-- `strptime(s, "%d/%m/%Y")`: `%d` and `%m` match one or two digits, `%Y`
exactly four. -/
def parseDateFmt2 (s : Str) : Option PyDate :=
  match splitOnChar slashChar s with
  | [ds, ms, ys] =>
    match parseFieldNat 1 2 ds, parseFieldNat 1 2 ms, parseFieldNat 4 4 ys with
    | some d, some m, some y => if validDate y m d then some ⟨y, m, d⟩ else none
    | _, _, _ => none
  | _ => none

/-- `strptime(s, "%d-%m-%Y")`: `%d` and `%m` match one or two digits, `%Y`
exactly four. -/
def parseDateFmt3 (s : Str) : Option PyDate :=
  match splitOnChar dashChar s with
  | [ds, ms, ys] =>
    match parseFieldNat 1 2 ds, parseFieldNat 1 2 ms, parseFieldNat 4 4 ys with
    | some d, some m, some y => if validDate y m d then some ⟨y, m, d⟩ else none
    | _, _, _ => none
  | _ => none

/-- The date-parsing loop shared by `parse_time_range`
(check_conflicts.py) and `parse_existing_datetime` (generate_schedule.py):
try `"%d-%b-%y"`, `"%d/%m/%Y"`, `"%d-%m-%Y"` in order on the stripped
string. -/
def parseDateStr (s : Str) : Option PyDate :=
  let t := pyStrip s
  match parseDateFmt1 t with
  | some d => some d
  | none =>
    match parseDateFmt2 t with
    | some d => some d
    | none => parseDateFmt3 t

/-- The `h, m = map(int, s.split("."))` stage of one shift endpoint: the two
integers, provided the token splits on `"."` into exactly two `int`-parseable
pieces (any failure there is caught by the source's `try` and yields
`None`). -/
def hourMinuteInts (s : Str) : Option (Int × Int) :=
  match splitOnChar dotChar s with
  | [hs, ms] =>
    match parseIntOpt hs, parseIntOpt ms with
    | some h, some m => some (h, m)
    | _, _ => none
  | _ => none

/-- The range check of the `time(h, m)` constructor. -/
def timeOk (p : Int × Int) : Bool :=
  decide (0 ≤ p.1) && decide (p.1 ≤ 23) && decide (0 ≤ p.2) && decide (p.2 ≤ 59)

/-- One endpoint of a shift range: `h, m = map(int, s.split("."))` followed by
`time(h, m)`.  The `time` constructor sits outside the `try` in the source,
so out-of-range components raise an uncaught `ValueError` that aborts the
whole run rather than producing `None`; that crash is modelled as `none` in
this Option-valued function and captured exactly by `parse_time_crashes`
below, which the round-trip theorems hypothesize to be `false`. -/
def parseHourMinute (s : Str) : Option (Nat × Nat) :=
  match hourMinuteInts s with
  | some p => if timeOk p then some (p.1.toNat, p.2.toNat) else none
  | none => none

/-- `parse_time_range(date_str, shift_str)` from check_conflicts.py.
`parse_existing_datetime(hari, tanggal, shift)` from generate_schedule.py has
the identical body (its `hari` argument is unused) and is defined below as a
wrapper around this function. -/
def parse_time_range (date_str shift_str : Str) : Option (PyDateTime × PyDateTime) :=
  if date_str = [] ∨ shift_str = [] then none
  else
    match parseDateStr date_str with
    | none => none
    | some d =>
      match splitOnChar dashChar shift_str with
      | [p1, p2] =>
        let s1 := removeSpaceTab (pyStrip p1)
        let s2 := removeSpaceTab (pyStrip p2)
        match parseHourMinute s1, parseHourMinute s2 with
        | some (h1, m1), some (h2, m2) => some (⟨d, h1 * 60 + m1⟩, ⟨d, h2 * 60 + m2⟩)
        | _, _ => none
      | _ => none

/-- The uncaught error path of `parse_time_range` (and of the allocator's
identical `parse_existing_datetime`): the date parses and both shift
endpoints survive the `try` block (`"-"`-split into two tokens, each a
dot-pair of `int`s), but a component is out of range for `time(h, m)`, which
sits outside the `try` — the source raises a `ValueError` that aborts the
run instead of returning `None`. -/
def parse_time_crashes (date_str shift_str : Str) : Bool :=
  if date_str = [] ∨ shift_str = [] then false
  else
    match parseDateStr date_str with
    | none => false
    | some _ =>
      match splitOnChar dashChar shift_str with
      | [p1, p2] =>
        match hourMinuteInts (removeSpaceTab (pyStrip p1)),
            hourMinuteInts (removeSpaceTab (pyStrip p2)) with
        | some q1, some q2 => !(timeOk q1 && timeOk q2)
        | _, _ => false
      | _ => false

/-- Digits of a natural number, zero-padded on the left to width `w`
(`strftime` zero-padded numeric directives). -/
def padZeros (w n : Nat) : Str :=
  let ds := Nat.toDigits 10 n
  List.replicate (w - ds.length) zeroChar ++ ds

def pad2 (n : Nat) : Str := padZeros 2 n

def pad4 (n : Nat) : Str := padZeros 4 n

/-- `format_time_range(start, end)`: `f"{start:%H.%M} - {end:%H.%M}"`. -/
def format_time_range (s e : PyDateTime) : Str :=
  pad2 (s.minute / 60) ++ [dotChar] ++ pad2 (s.minute % 60) ++ (r" - ").data
    ++ pad2 (e.minute / 60) ++ [dotChar] ++ pad2 (e.minute % 60)

/-- `start_dt.strftime("%Y-%m-%d")`, the usage-map date key. -/
def dateKeyStr (d : PyDate) : Str :=
  pad4 d.year ++ [dashChar] ++ pad2 d.month ++ [dashChar] ++ pad2 d.day

/-- `start_dt.strftime("%d-%b-%y")`, the output date format. -/
def fmtDMonY (d : PyDate) : Str :=
  pad2 d.day ++ [dashChar] ++ monthAbbrevs.getD (d.month - 1) [] ++ [dashChar] ++ pad2 (d.year % 100)

/-- `weekday_name` from generate_schedule.py. -/
def weekday_name (d : PyDate) : Str :=
  match d.weekday with
  | 0 => (r"SENIN").data
  | 1 => (r"SELASA").data
  | 2 => (r"RABU").data
  | 3 => (r"KAMIS").data
  | 4 => (r"JUM").data ++ [Char.ofNat 39] ++ (r"AT").data
  | 5 => (r"SABTU").data
  | _ => (r"MINGGU").data

/-- First-occurrence deduplication, matching the key-insertion order of a
Python dict / `defaultdict` (used to model iteration over grouped keys). -/
def firstDedupAux {α : Type} [DecidableEq α] (seen : List α) : List α → List α
  | [] => []
  | a :: as => if a ∈ seen then firstDedupAux seen as else a :: firstDedupAux (a :: seen) as

def firstDedup {α : Type} [DecidableEq α] (l : List α) : List α := firstDedupAux [] l

/-- The keys of a `defaultdict` grouping, in first-occurrence order. -/
def keysInOrder {α κ : Type} [DecidableEq κ] (key : α → Option κ) (rs : List α) : List κ :=
  firstDedup (rs.filterMap key)

/-- The group of a given key, in input order. -/
def groupOf {α κ : Type} [DecidableEq κ] (key : α → Option κ) (k : κ) (rs : List α) : List α :=
  rs.filter (fun r => decide (key r = some k))

namespace CheckConflicts

def START_DATE : PyDate := ⟨2025, 11, 3⟩

def END_DATE : PyDate := ⟨2025, 11, 7⟩

def BLACKLIST_MON_WED_SUFFIXES : List Str :=
  [(r"KTT 2.08").data, (r"KTT 2.07").data, (r"KTT 2.06").data, (r"KTT 2.05").data,
   (r"KTT 2.04").data]

def BLACKLIST_MON_FRI_SUFFIXES : List Str := [(r"KTT 2.09").data]

/-- `is_within_uts_week` from check_conflicts.py.  Python compares
`date` objects; for the valid dates the source ever builds this is ordinal
comparison. -/
def is_within_uts_week (d : PyDate) : Bool :=
  decide (START_DATE.toOrdinal ≤ d.toOrdinal) && decide (d.toOrdinal ≤ END_DATE.toOrdinal)

/-- `is_room_blacklisted_on_date` from check_conflicts.py. -/
def is_room_blacklisted_on_date (room : Str) (d : PyDate) : Bool :=
  if !is_within_uts_week d then false
  else if BLACKLIST_MON_FRI_SUFFIXES.any (fun suf => pyEndsWith room suf && decide (d.weekday ≤ 4)) then true
  else if BLACKLIST_MON_WED_SUFFIXES.any (fun suf => pyEndsWith room suf && decide (d.weekday ≤ 2)) then true
  else false

/-- A schedule record as built by `read_schedule` (each field already
stripped by its `get` helper). -/
structure Rec where
  hari : Str
  tanggal : Str
  shift : Str
  ruangan : Str
  kode : Str
  nama_mk : Str
  dosen : Str
  kelas : Str
deriving DecidableEq

/-- The record's `_INTERVAL` field: `parse_time_range(TANGGAL, SHIFT)`.
`read_schedule` computes it once and stores it; since the computation is
pure it is modelled as a function of the record. -/
def Rec.interval (r : Rec) : Option (PyDateTime × PyDateTime) :=
  parse_time_range r.tanggal r.shift

/-- The deduplication key `(KELAS, TANGGAL, SHIFT, KODE MATA KULIAH)` of
`deduplicate_records`. -/
def dedupKey (r : Rec) : Str × Str × Str × Str :=
  (pyStrip r.kelas, pyStrip r.tanggal, pyStrip r.shift, pyStrip r.kode)

def deduplicateAux (seen : List (Str × Str × Str × Str)) : List Rec → List Rec
  | [] => []
  | r :: rs =>
    if dedupKey r ∈ seen then deduplicateAux seen rs
    else r :: deduplicateAux (dedupKey r :: seen) rs

/-- `deduplicate_records` from check_conflicts.py. -/
def deduplicate_records (rs : List Rec) : List Rec := deduplicateAux [] rs

/-- All pairs `(items[i], items[j])`, `i < j`, whose intervals overlap —
the pairwise scan of `find_class_conflicts` / `find_dosen_conflicts`. -/
def overlapB (a b : Rec) : Bool :=
  match a.interval, b.interval with
  | some i1, some i2 => intervalsOverlap i1 i2
  | _, _ => false

def overlapPairs : List Rec → List (Rec × Rec)
  | [] => []
  | x :: xs => ((xs.filter (fun y => overlapB x y)).map (fun y => (x, y))) ++ overlapPairs xs

/-- An entry of the class-conflict report.  The source emits a dict of
strings; the entry here carries the data those strings are projected from:
for `overlapPair`, `SHIFT_1 = a.shift`, `MATA KULIAH 1 = a.nama_mk`,
`KODE 1 = a.kode`, `RUANGAN 1 = a.ruangan` and likewise `_2` from `b`; for
`quota`, `JENIS = "LIMIT > 2/HARI"`, `TOTAL = items.length` and `DETAIL`
joins `shift - nama_mk` over `items`. -/
inductive ClassEntry where
  | overlapPair (kelas tanggal : Str) (a b : Rec) : ClassEntry
  | quota (kelas tanggal : Str) (items : List Rec) : ClassEntry
deriving DecidableEq

/-- The grouping key of `find_class_conflicts`: records with empty `KELAS`
or `TANGGAL` or an unparseable `_INTERVAL` are skipped. -/
def classKey (r : Rec) : Option (Str × Str) :=
  if r.kelas = [] ∨ r.tanggal = [] then none
  else if r.interval.isSome then some (r.kelas, r.tanggal)
  else none

def classGroupEntries (k : Str × Str) (items : List Rec) : List ClassEntry :=
  ((overlapPairs items).map (fun p => ClassEntry.overlapPair k.1 k.2 p.1 p.2))
    ++ (if 2 < items.length then [ClassEntry.quota k.1 k.2 items] else [])

/-- `find_class_conflicts` from check_conflicts.py. -/
def find_class_conflicts (rs : List Rec) : List ClassEntry :=
  (keysInOrder classKey rs).flatMap (fun k => classGroupEntries k (groupOf classKey k rs))

/-- An entry of the room-conflict report (one per over-booked occupant). -/
structure RoomEntry where
  tanggal : Str
  shift : Str
  ruangan : Str
  rcd : Rec
deriving DecidableEq

def roomKey (r : Rec) : Option (Str × Str × Str) :=
  if r.tanggal = [] ∨ r.shift = [] ∨ r.ruangan = [] then none
  else some (r.tanggal, r.shift, r.ruangan)

def isAulaName (room : Str) : Bool := pyUpper (pyStrip room) == (r"AULA").data

def roomGroupEntries (k : Str × Str × Str) (items : List Rec) : List RoomEntry :=
  if isAulaName k.2.2 && decide (items.length ≤ 2) then []
  else if 1 < items.length then items.map (fun it => ⟨k.1, k.2.1, k.2.2, it⟩)
  else []

/-- `find_room_conflicts` from check_conflicts.py. -/
def find_room_conflicts (rs : List Rec) : List RoomEntry :=
  (keysInOrder roomKey rs).flatMap (fun k => roomGroupEntries k (groupOf roomKey k rs))

/-- An entry of the lecturer-conflict report (the dict's fields are
projections of the two records). -/
structure DosenEntry where
  dosen : Str
  a : Rec
  b : Rec
deriving DecidableEq

def dosenKey (r : Rec) : Option Str :=
  if pyStrip r.dosen = [] then none
  else if r.interval.isSome then some (pyStrip r.dosen)
  else none

/-- `find_dosen_conflicts` from check_conflicts.py. -/
def find_dosen_conflicts (rs : List Rec) : List DosenEntry :=
  (keysInOrder dosenKey rs).flatMap
    (fun d => (overlapPairs (groupOf dosenKey d rs)).map (fun p => ⟨d, p.1, p.2⟩))

/-- An entry of the blackout report. -/
structure BlackEntry where
  rcd : Rec
deriving DecidableEq

/-- `find_blacklist_violations` from check_conflicts.py. -/
def find_blacklist_violations (rs : List Rec) : List BlackEntry :=
  rs.filterMap (fun r =>
    let room := pyStrip r.ruangan
    match r.interval with
    | none => none
    | some iv =>
      if room = [] then none
      else if is_room_blacklisted_on_date room iv.1.date then some ⟨r⟩
      else none)

end CheckConflicts

namespace GenSchedule

def START_DATE : PyDate := ⟨2025, 11, 3⟩

def END_DATE : PyDate := ⟨2025, 11, 7⟩

def SHIFT_DURATION_MIN : Nat := 120

def ALLOWED_SHIFT_STARTS : List Nat := [7 * 60 + 30, 10 * 60, 13 * 60, 15 * 60 + 30]

/-- generate_schedule.py's blacklist suffix sets.  Note: these differ from
the auditor's (`KELAS …` here versus `KTT …` in check_conflicts.py and
fix_blacklisted_rooms.py). -/
def BLACKLIST_MON_WED_SUFFIXES : List Str :=
  [(r"KELAS 2.08").data, (r"KELAS 2.07").data, (r"KELAS 2.06").data, (r"KELAS 2.05").data,
   (r"KELAS 2.04").data]

def BLACKLIST_MON_FRI_SUFFIXES : List Str := [(r"KELAS 2.09").data]

def is_within_uts_week (d : PyDate) : Bool :=
  decide (START_DATE.toOrdinal ≤ d.toOrdinal) && decide (d.toOrdinal ≤ END_DATE.toOrdinal)

/-- `is_room_blacklisted_on_date` from generate_schedule.py (same shape as
the auditor's but over the `KELAS …` suffix sets). -/
def is_room_blacklisted_on_date (room : Str) (d : PyDate) : Bool :=
  if !is_within_uts_week d then false
  else if BLACKLIST_MON_FRI_SUFFIXES.any (fun suf => pyEndsWith room suf && decide (d.weekday ≤ 4)) then true
  else if BLACKLIST_MON_WED_SUFFIXES.any (fun suf => pyEndsWith room suf && decide (d.weekday ≤ 2)) then true
  else false

def AULA_NAME : Str := (r"AULA").data

def is_aula (room : Str) : Bool := pyUpper (pyStrip room) == AULA_NAME

/-- `is_aula_time_allowed`: Monday of the exam week is fully allowed,
Tuesday only from 13:00, other days never. -/
def is_aula_time_allowed (d : PyDate) (start_dt : PyDateTime) : Bool :=
  if !is_within_uts_week d then false
  else if d.weekday = 0 then true
  else if d.weekday = 1 then decide ((PyDateTime.abs ⟨d, 13 * 60⟩) ≤ start_dt.abs)
  else false

/-- `generate_daily_shifts`: the four fixed 120-minute shifts of a date. -/
def generate_daily_shifts (d : PyDate) : List (PyDateTime × PyDateTime) :=
  ALLOWED_SHIFT_STARTS.map (fun s => (⟨d, s⟩, ⟨d, s + SHIFT_DURATION_MIN⟩))

/-- Calendar successor of a date (`date + timedelta(days=1)`). -/
def nextDay (d : PyDate) : PyDate :=
  if d.day < daysInMonth d.year d.month then ⟨d.year, d.month, d.day + 1⟩
  else if d.month < 12 then ⟨d.year, d.month + 1, 1⟩
  else ⟨d.year + 1, 1, 1⟩

/-- The `while` loop of `iter_allowed_dates`, with a fuel bound on the
number of iterations (the source loop runs for exactly the days from
`START_DATE` to `END_DATE`). -/
def datesFromAux : Nat → PyDate → List PyDate
  | 0, _ => []
  | fuel + 1, cur =>
    if cur.toOrdinal ≤ END_DATE.toOrdinal then
      (if cur.weekday < 5 then [cur] else []) ++ datesFromAux fuel (nextDay cur)
    else []

/-- `iter_allowed_dates`: the Monday–Friday dates of the exam week. -/
def iter_allowed_dates : List PyDate := datesFromAux 7 START_DATE

/-- `aula_preferred_shifts`: the four shifts of a date, reordered (afternoon
first except on Monday). -/
def aula_preferred_shifts (d : PyDate) : List (PyDateTime × PyDateTime) :=
  let slots := generate_daily_shifts d
  let order : List Nat :=
    if d.weekday = 0 then [7 * 60 + 30, 10 * 60, 13 * 60, 15 * 60 + 30]
    else [13 * 60, 15 * 60 + 30, 7 * 60 + 30, 10 * 60]
  order.filterMap (fun t => slots.find? (fun se => se.1.minute == t))

/-- `aula_preferred_dates`: Monday, then Tuesday, then the remaining
weekdays (the function's docstring says Tuesday first, but the code returns
`mon + tue + others`). -/
def aula_preferred_dates : List PyDate :=
  let dates := iter_allowed_dates
  (dates.filter (fun d => d.weekday == 0)) ++ (dates.filter (fun d => d.weekday == 1))
    ++ (dates.filter (fun d => !(d.weekday == 0 || d.weekday == 1)))

/-- `parse_existing_datetime` from generate_schedule.py: identical body to
check_conflicts.py's `parse_time_range`; the `hari` argument is unused. -/
def parse_existing_datetime (_hari tanggal shift : Str) : Option (PyDateTime × PyDateTime) :=
  parse_time_range tanggal shift

/-- `parse_int_safe`: `int(str(v).strip())`, `0` on failure. -/
def parse_int_safe (v : Str) : Int := (parseIntOpt v).getD 0

/-- One input row of `build_schedule` as produced by `parse_csv` (each field
stripped by `parse_csv`'s `get` helper).  The `butuh_*` columns are carried
through `build_schedule` unchanged and never written to the audited output
columns nor consulted by any scheduling decision, so they are omitted. -/
structure Item where
  kode_mk : Str
  nama_mk : Str
  nama_dosen : Str
  kelas : Str
  hari : Str
  tanggal : Str
  shift : Str
  ruangan : Str
  bentuk_ujian : Str
  jumlah_mhs : Str
deriving DecidableEq

/-- The mutable usage maps of `build_schedule` (`defaultdict`s, modelled as
total functions with the dict's default as value elsewhere). -/
structure AState where
  room_usage : Str → Str → Str → Nat
  room_occupants : Str → Str → Str → List Str
  class_usage : Str → List (PyDateTime × PyDateTime)
  class_daily_count : Str → Str → Nat

def initState : AState :=
  ⟨fun _ _ _ => 0, fun _ _ _ => [], fun _ => [], fun _ _ => 0⟩

def AState.addRoomUsage (st : AState) (dk sk room : Str) : AState :=
  { st with room_usage := fun a b c =>
      if a = dk ∧ b = sk ∧ c = room then st.room_usage a b c + 1 else st.room_usage a b c }

def AState.addOccupant (st : AState) (dk sk room kelas : Str) : AState :=
  { st with room_occupants := fun a b c =>
      if a = dk ∧ b = sk ∧ c = room then st.room_occupants a b c ++ [kelas]
      else st.room_occupants a b c }

def AState.addClassUsage (st : AState) (kelas : Str) (iv : PyDateTime × PyDateTime) : AState :=
  { st with class_usage := fun k =>
      if k = kelas then st.class_usage k ++ [iv] else st.class_usage k }

def AState.addDaily (st : AState) (kelas dk : Str) : AState :=
  { st with class_daily_count := fun k d =>
      if k = kelas ∧ d = dk then st.class_daily_count k d + 1 else st.class_daily_count k d }

/-- `is_class_conflict` from `build_schedule`: time overlap against the
class's registered intervals, or daily count already at 2. -/
def is_class_conflict (st : AState) (kelas : Str) (s e : PyDateTime) : Bool :=
  if kelas = [] then false
  else if (st.class_usage kelas).any (fun iv => intervalsOverlap (s, e) iv) then true
  else if 2 ≤ st.class_daily_count kelas (dateKeyStr s.date) then true
  else false

def ujianTulisStr : Str := (r"ujian tulis").data

/-- The candidate-collection loop of `pick_free_room`: returns the
`aula_candidates` and `normal_candidates` lists in roster order. -/
def pickCandidates (rooms : List Str) (st : AState) (d : PyDate) (dk sk : Str)
    (s : PyDateTime) (bentuk : Str) (allowAula : Bool) (jumlah : Int) : List Str × List Str :=
  match rooms with
  | [] => ([], [])
  | rm :: rest =>
    let c := pickCandidates rest st d dk sk s bentuk allowAula jumlah
    if is_room_blacklisted_on_date rm d then c
    else if is_aula rm then
      if !allowAula then c
      else if !(pyLower (pyStrip bentuk) == ujianTulisStr) || decide (jumlah ≤ 0) || decide (jumlah < 40) then c
      else if decide (st.room_usage dk sk rm < 2) && is_aula_time_allowed d s then (rm :: c.1, c.2)
      else c
    else if st.room_usage dk sk rm = 0 then (c.1, rm :: c.2)
    else c

/-- Model of `random.choice`: the first element of the (nonempty) candidate
list.  Every theorem below that depends on the chosen room either holds for
every member of the candidate list or is applied to singleton candidate
lists, for which this is the only possible choice. -/
def pyChoice (l : List Str) : Option Str := l.head?

/-- `pick_free_room` from `build_schedule`. -/
def pick_free_room (rooms : List Str) (st : AState) (d : PyDate) (dk sk : Str)
    (s : PyDateTime) (bentuk : Str) (allowAula : Bool) (jumlah : Int) : Option Str :=
  let c := pickCandidates rooms st d dk sk s bentuk allowAula jumlah
  if c.1 = [] ∧ c.2 = [] then none
  else
    let isTulis := pyLower (pyStrip bentuk) == ujianTulisStr
      && decide (0 < jumlah) && decide (40 ≤ jumlah)
    if isTulis then
      if c.1 ≠ [] then (if AULA_NAME ∈ c.1 then some AULA_NAME else pyChoice c.1)
      else if c.2 ≠ [] then pyChoice c.2
      else none
    else
      if c.2 ≠ [] then pyChoice c.2
      else if c.1 ≠ [] then (if AULA_NAME ∈ c.1 then some AULA_NAME else pyChoice c.1)
      else none

/-- `has_shift0` inside `sort_key`: day, date and shift all nonempty after
stripping. -/
def hasShiftB (it : Item) : Bool :=
  decide (pyStrip it.hari ≠ []) && decide (pyStrip it.tanggal ≠ []) && decide (pyStrip it.shift ≠ [])

/-- `sort_key` from `build_schedule`: `(1 if aula_cand else 0, prefix0,
-mhs0)` where `prefix0` is the first two characters of the stripped class
and `mhs0` the parsed head-count. -/
def sortKey (it : Item) : Nat × Str × Int :=
  let isTulis := pyLower (pyStrip it.bentuk_ujian) == ujianTulisStr
  ((if isTulis && !hasShiftB it then 1 else 0),
   (pyStrip it.kelas).take 2,
   -(parse_int_safe it.jumlah_mhs))

/-- Python string comparison: lexicographic by code point. -/
def strLtB : Str → Str → Bool
  | [], [] => false
  | [], _ :: _ => true
  | _ :: _, [] => false
  | a :: as, b :: bs =>
    if a.toNat < b.toNat then true
    else if b.toNat < a.toNat then false
    else strLtB as bs

/-- Lexicographic comparison of sort keys (Python tuple comparison). -/
def keyLe (x y : Item) : Bool :=
  let k1 := sortKey x
  let k2 := sortKey y
  if k1.1 < k2.1 then true
  else if k2.1 < k1.1 then false
  else if strLtB k1.2.1 k2.2.1 then true
  else if strLtB k2.2.1 k1.2.1 then false
  else decide (k1.2.2 ≤ k2.2.2)

def stInsert (x : Item) : List Item → List Item
  | [] => [x]
  | y :: ys => if keyLe x y then x :: y :: ys else y :: stInsert x ys

/-- The stable sort by `sort_key` (`list.sort` in Python is stable, and the
stable sort by a total preorder is unique, so insertion sort computes the
same list). -/
def stableSort : List Item → List Item
  | [] => []
  | x :: xs => stInsert x (stableSort xs)

/-- The pre-pass of `build_schedule` (\"Kumpulkan existing jadwal bila
ada\"): every item with nonempty date and shift whose time parses is
registered into the usage maps before the main loop. -/
def prePassOne (st : AState) (it : Item) : AState :=
  if it.tanggal ≠ [] ∧ it.shift ≠ [] then
    match parse_existing_datetime it.hari it.tanggal it.shift with
    | none => st
    | some (s, e) =>
      let dk := dateKeyStr s.date
      let sk := format_time_range s e
      let st1 := if it.kelas ≠ [] then (st.addClassUsage it.kelas (s, e)).addDaily it.kelas dk else st
      let room := pyStrip it.ruangan
      if room ≠ [] then
        let st2 := st1.addRoomUsage dk sk room
        if it.kelas ≠ [] then st2.addOccupant dk sk room it.kelas else st2
      else st1
  else st

def prePass (items : List Item) : AState := items.foldl prePassOne initState

/-- One output row of `build_schedule`, restricted to the ten columns that
`write_outputs` writes (and that `check_conflicts.py` later reads). -/
structure OutRow where
  hari : Str
  tanggal : Str
  shift : Str
  ruangan : Str
  kode_mk : Str
  nama_mk : Str
  nama_dosen : Str
  kelas : Str
  bentuk_ujian : Str
  jumlah_mhs : Str
deriving DecidableEq

def mkOut (h t s rm : Str) (it : Item) : OutRow :=
  ⟨h, t, s, rm, it.kode_mk, it.nama_mk, it.nama_dosen, it.kelas, it.bentuk_ujian, it.jumlah_mhs⟩

/-- The AULA-pairing search of `build_schedule` (step 1 of the generation
path): the first preferred slot with no class conflict where the AULA
already has exactly one occupant, the record is an eligible written exam,
the AULA time window allows the slot, and the class prefix matches the
existing occupant's. -/
def stepA (st : AState) (kelas bentukL : Str) (jumlah : Int) :
    Option (PyDate × (PyDateTime × PyDateTime)) :=
  (aula_preferred_dates.flatMap (fun d => (aula_preferred_shifts d).map (fun se => (d, se)))).find?
    (fun slot =>
      let s := slot.2.1
      let dk := dateKeyStr s.date
      let sk := format_time_range s slot.2.2
      !is_class_conflict st kelas s slot.2.2
        && (bentukL == ujianTulisStr) && decide (40 ≤ jumlah)
        && (st.room_usage dk sk AULA_NAME == 1)
        && is_aula_time_allowed slot.1 s
        && (match st.room_occupants dk sk AULA_NAME with
            | [] => false
            | o :: _ =>
              decide (kelas.take 2 ≠ []) && decide (o.take 2 ≠ [])
                && (kelas.take 2 == o.take 2)))

/-- The room search for one candidate slot in the normal-allocation loop
(step 2 of the generation path): `none` means try the next slot. -/
def stepBRoom (rooms : List Str) (st : AState) (kelas ruangan bentuk : Str) (jumlah : Int)
    (slot : PyDate × (PyDateTime × PyDateTime)) : Option Str :=
  let d := slot.1
  let s := slot.2.1
  let e := slot.2.2
  if is_class_conflict st kelas s e then none
  else
    let dk := dateKeyStr s.date
    let sk := format_time_range s e
    let roomOpt :=
      if ruangan ≠ [] then
        if !is_room_blacklisted_on_date ruangan s.date then
          if is_aula ruangan then
            if is_aula_time_allowed d s && decide (st.room_usage dk sk ruangan < 2) then some ruangan
            else none
          else if st.room_usage dk sk ruangan = 0 then some ruangan
          else none
        else none
      else pick_free_room rooms st d dk sk s bentuk true jumlah
    match roomOpt with
    | some rm => if rm = [] then none else some rm
    | none => none

/-- The slot list visited by the normal-allocation loop. -/
def stepBSlots (isAulaCand : Bool) : List (PyDate × (PyDateTime × PyDateTime)) :=
  (if isAulaCand then aula_preferred_dates else iter_allowed_dates).flatMap
    (fun d => ((if isAulaCand then aula_preferred_shifts d else generate_daily_shifts d)).map
      (fun se => (d, se)))

/-- Register an assignment into the usage maps exactly as the generation
paths of `build_schedule` do (`class_usage` and `class_daily_count`
unguarded, `room_occupants` only for a nonempty class). -/
def registerGenerated (st : AState) (kelas : Str) (s e : PyDateTime) (rm : Str) : AState :=
  let dk := dateKeyStr s.date
  let sk := format_time_range s e
  let st1 := (st.addClassUsage kelas (s, e)).addDaily kelas dk
  let st2 := st1.addRoomUsage dk sk rm
  if kelas ≠ [] then st2.addOccupant dk sk rm kelas else st2

/-- One iteration of the main loop of `build_schedule`. -/
def stepItem (rooms : List Str) (st : AState) (it : Item) : AState × OutRow :=
  let kelas := it.kelas
  let hari := pyUpper (pyStrip it.hari)
  let tanggal := pyStrip it.tanggal
  let shift := pyStrip it.shift
  let ruangan := pyStrip it.ruangan
  let bentuk := pyStrip it.bentuk_ujian
  let jumlah := parse_int_safe it.jumlah_mhs
  if hari ≠ [] ∧ tanggal ≠ [] ∧ shift ≠ [] ∧ ruangan ≠ [] then
    -- fully pre-filled rows are trusted verbatim; registered when parseable
    match parse_existing_datetime hari tanggal shift with
    | some (s, e) =>
      let dk := dateKeyStr s.date
      let sk := format_time_range s e
      let st1 := if kelas ≠ [] then (st.addClassUsage kelas (s, e)).addDaily kelas dk else st
      let room := pyStrip ruangan
      let st2 :=
        if room ≠ [] then
          let stR := st1.addRoomUsage dk sk room
          if kelas ≠ [] then stR.addOccupant dk sk room kelas else stR
        else st1
      (st2, mkOut it.hari it.tanggal it.shift it.ruangan it)
    | none => (st, mkOut it.hari it.tanggal it.shift it.ruangan it)
  else
    match parse_existing_datetime hari tanggal shift with
    | some (s, e) =>
      -- date and shift fixed: keep the time, only look for a room
      let dk := dateKeyStr s.date
      let sk := format_time_range s e
      let room :=
        if ruangan ≠ [] then ruangan
        else (pick_free_room rooms st s.date dk sk s bentuk false jumlah).getD []
      let st1 := if kelas ≠ [] then (st.addClassUsage kelas (s, e)).addDaily kelas dk else st
      let st2 :=
        if room ≠ [] then
          let stR := st1.addRoomUsage dk sk room
          if kelas ≠ [] then stR.addOccupant dk sk room kelas else stR
        else st1
      (st2, mkOut (weekday_name s.date) (fmtDMonY s.date) sk room it)
    | none =>
      -- nothing fixed: AULA pairing first, then normal allocation
      let bentukL := pyLower bentuk
      match stepA st kelas bentukL jumlah with
      | some slot =>
        let s := slot.2.1
        let e := slot.2.2
        (registerGenerated st kelas s e AULA_NAME,
         mkOut (weekday_name s.date) (fmtDMonY s.date) (format_time_range s e) AULA_NAME it)
      | none =>
        let isAulaCand := (bentukL == ujianTulisStr) && decide (0 < jumlah)
        match (stepBSlots isAulaCand).findSome?
            (fun slot => (stepBRoom rooms st kelas ruangan bentuk jumlah slot).map
              (fun rm => (slot, rm))) with
        | some (slot, rm) =>
          let s := slot.2.1
          let e := slot.2.2
          (registerGenerated st kelas s e rm,
           mkOut (weekday_name s.date) (fmtDMonY s.date) (format_time_range s e) rm it)
        | none => (st, mkOut [] [] [] [] it)

/-- The main loop of `build_schedule` over the sorted items. -/
def mainFold (rooms : List Str) (st : AState) : List Item → List OutRow
  | [] => []
  | it :: rest =>
    let p := stepItem rooms st it
    p.2 :: mainFold rooms p.1 rest

/-- `build_schedule(items)` with the room roster `ALL_ROOMS` passed
explicitly: the pre-pass over the unsorted items, then the main loop over
the stably sorted items. -/
def build_schedule (rooms : List Str) (items : List Item) : List OutRow :=
  mainFold rooms (prePass items) (stableSort items)

end GenSchedule

/-- The boundary between the two scripts: `write_outputs` writes the ten
columns of each row to CSV and `read_schedule` reads the eight columns it
needs back, stripping each field and dropping entirely blank rows.  (The
CSV round-trip itself is identity on these fields.) -/
def outToRec (o : GenSchedule.OutRow) : CheckConflicts.Rec :=
  ⟨pyStrip o.hari, pyStrip o.tanggal, pyStrip o.shift, pyStrip o.ruangan,
   pyStrip o.kode_mk, pyStrip o.nama_mk, pyStrip o.nama_dosen, pyStrip o.kelas⟩

def rowNonBlank (o : GenSchedule.OutRow) : Bool :=
  !(o.hari == [] && o.tanggal == [] && o.shift == [] && o.ruangan == [] && o.kode_mk == []
    && o.nama_mk == [] && o.nama_dosen == [] && o.kelas == [] && o.bentuk_ujian == []
    && o.jumlah_mhs == [])

def readBack (outs : List GenSchedule.OutRow) : List CheckConflicts.Rec :=
  (outs.filter rowNonBlank).map outToRec

/-- The audit pipeline of `check_conflicts.main` on a list of records:
deduplicate, then run the four finders. -/
def auditAll (rs : List CheckConflicts.Rec) :
    List CheckConflicts.ClassEntry × List CheckConflicts.RoomEntry
      × List CheckConflicts.DosenEntry × List CheckConflicts.BlackEntry :=
  let ds := CheckConflicts.deduplicate_records rs
  (CheckConflicts.find_class_conflicts ds, CheckConflicts.find_room_conflicts ds,
   CheckConflicts.find_dosen_conflicts ds, CheckConflicts.find_blacklist_violations ds)

namespace CheckConflicts

/-- Whether a class-report entry is the quota entry for class `k` on date
`d`. -/
def isQuotaFor (k d : Str) (e : ClassEntry) : Bool :=
  match e with
  | .quota k1 d1 _ => k1 == k && d1 == d
  | _ => false

/-- The `TOTAL` column of a quota entry. -/
def quotaTotal (e : ClassEntry) : Nat :=
  match e with
  | .quota _ _ items => items.length
  | _ => 0

end CheckConflicts

namespace GenSchedule

/-- The interval a finished output row parses back to (what the auditor
will see as `_INTERVAL`). -/
def rowInterval (o : OutRow) : Option (PyDateTime × PyDateTime) :=
  parse_time_range o.tanggal o.shift

/-- The number of output rows of class `k` whose reparsed interval starts on
the day with usage-map key `dk`. -/
def countClass (outs : List OutRow) (k dk : Str) : Nat :=
  (outs.filter (fun o =>
    o.kelas == k && ((rowInterval o).any (fun iv => dateKeyStr iv.1.date == dk)))).length

/-- The number of output rows in room `rm` at the slot with usage-map keys
`(dk, sk)`. -/
def countRoom (outs : List OutRow) (dk sk rm : Str) : Nat :=
  (outs.filter (fun o =>
    ((rowInterval o).any (fun iv => dateKeyStr iv.1.date == dk && format_time_range iv.1 iv.2 == sk))
      && o.ruangan == rm)).length

/-- The slot grid: every weekday of the exam week crossed with the four
fixed daily shifts. -/
def allSlots : List (PyDate × (PyDateTime × PyDateTime)) :=
  iter_allowed_dates.flatMap (fun d => (generate_daily_shifts d).map (fun se => (d, se)))

/-- Shape of a finished output row when every input record starts fully
unscheduled: either still unassigned (empty time and room fields) or
assigned to a grid slot and a room of the roster (or the AULA), with the
printed date/shift strings parsing back to exactly that slot. -/
def GoodRow (rooms : List Str) (o : OutRow) : Prop :=
  (o.hari = [] ∧ o.tanggal = [] ∧ o.shift = [] ∧ o.ruangan = [])
  ∨ (∃ slot ∈ allSlots,
      o.hari = weekday_name slot.2.1.date ∧
      o.tanggal = fmtDMonY slot.2.1.date ∧
      o.shift = format_time_range slot.2.1 slot.2.2 ∧
      o.ruangan ≠ [] ∧ (o.ruangan ∈ rooms ∨ o.ruangan = AULA_NAME) ∧
      rowInterval o = some slot.2)

end GenSchedule

/-- The input rows of `build_schedule` viewed as schedule records, used to
state "the pre-filled rows contain no conflicts": auditing the input rows
directly (rows without a pre-filled date or shift have no interval and can
contribute to no report). -/
def itemRecords (items : List GenSchedule.Item) : List CheckConflicts.Rec :=
  items.map (fun it =>
    ⟨it.hari, it.tanggal, it.shift, it.ruangan, it.kode_mk, it.nama_mk, it.nama_dosen, it.kelas⟩)

/-- Roster for the C8 counterexample: just the AULA. -/
def cexC8Rooms : List Str := [(r"AULA").data]

/-- C8 counterexample: two large written exams with different class
prefixes. -/
def cexC8Items : List GenSchedule.Item :=
  [⟨(r"K1").data, (r"M1").data, (r"Da").data, (r"AA-1").data, [], [], [], [],
    (r"Ujian Tulis").data, (r"45").data⟩,
   ⟨(r"K2").data, (r"M2").data, (r"Db").data, (r"ZZ-1").data, [], [], [], [],
    (r"Ujian Tulis").data, (r"40").data⟩]

/-- Roster for the C1 counterexample: one room carrying an auditor blacklist
suffix, one neutral room. -/
def cexC1Rooms : List Str := [(r"KTT 2.08").data, (r"R9").data]

/-- C1 counterexample input: two records with pre-filled times whose dates
lie a century apart but print identically under `%d-%b-%y` (their pre-filled
rows audit clean), plus two unscheduled records sharing a lecturer. -/
def cexC1Items : List GenSchedule.Item :=
  [⟨(r"K1").data, (r"M1").data, (r"E1").data, (r"QQ").data, [], (r"01/01/2070").data,
    (r"07.30 - 09.30").data, (r"R9").data, [], (r"10").data⟩,
   ⟨(r"K2").data, (r"M2").data, (r"E2").data, (r"QQ").data, [], (r"01/01/1970").data,
    (r"07.30 - 09.30").data, (r"R9").data, [], (r"10").data⟩,
   ⟨(r"K3").data, (r"M3").data, (r"D").data, (r"CC").data, [], [], [], [], [], (r"50").data⟩,
   ⟨(r"K4").data, (r"M4").data, (r"D").data, (r"EE").data, [], [], [], [], [], (r"40").data⟩]

/-- C9 counterexample: two records with unparseable times sharing a
(date-string, shift-string, room) slot key. -/
def cexC9a : CheckConflicts.Rec :=
  ⟨[], (r"xx").data, (r"yy-zz").data, (r"R1").data, (r"K1").data, (r"M").data, (r"D1").data,
   (r"A").data⟩

def cexC9b : CheckConflicts.Rec :=
  ⟨[], (r"xx").data, (r"yy-zz").data, (r"R1").data, (r"K2").data, (r"M").data, (r"D2").data,
   (r"B").data⟩

/-- C5 scenario record: room `KTT 2.08` on Monday 2025-11-03. -/
def cexC5a : CheckConflicts.Rec :=
  ⟨[], (r"03-Nov-25").data, (r"07.30 - 09.30").data, (r"KTT 2.08").data, (r"K").data,
   (r"M").data, (r"D").data, (r"A").data⟩

/-- C5 scenario record: the same room on 2025-11-10, outside the window. -/
def cexC5b : CheckConflicts.Rec :=
  ⟨[], (r"10-Nov-25").data, (r"07.30 - 09.30").data, (r"KTT 2.08").data, (r"K").data,
   (r"M").data, (r"D").data, (r"A").data⟩

namespace CheckConflicts

/-- The records occupying the (date-string, shift-string, room) slot
`(t, s, rm)`. -/
def occupantsOf (t s rm : Str) (rs : List Rec) : List Rec :=
  rs.filter (fun r => r.tanggal == t && r.shift == s && r.ruangan == rm)

end CheckConflicts

/-- Witness records for C2: the spec scenario of two overlapping exams of
class `IT-06-A` on `03-Nov-25`. -/
def cexC2a : CheckConflicts.Rec :=
  ⟨[], (r"03-Nov-25").data, (r"07.30 - 09.30").data, (r"R1").data, (r"K1").data, (r"M1").data,
   (r"D1").data, (r"IT-06-A").data⟩

def cexC2b : CheckConflicts.Rec :=
  ⟨[], (r"03-Nov-25").data, (r"08.30 - 10.30").data, (r"R2").data, (r"K2").data, (r"M2").data,
   (r"D2").data, (r"IT-06-A").data⟩

/-- Witness records for C3: the spec scenario of three exams of class
`IT-06-A` on `03-Nov-25` at non-overlapping shifts. -/
def cexC3a : CheckConflicts.Rec :=
  ⟨[], (r"03-Nov-25").data, (r"07.30 - 09.30").data, (r"R1").data, (r"K1").data, (r"M1").data,
   (r"D1").data, (r"IT-06-A").data⟩

def cexC3b : CheckConflicts.Rec :=
  ⟨[], (r"03-Nov-25").data, (r"10.00 - 12.00").data, (r"R2").data, (r"K2").data, (r"M2").data,
   (r"D2").data, (r"IT-06-A").data⟩

def cexC3c : CheckConflicts.Rec :=
  ⟨[], (r"03-Nov-25").data, (r"13.00 - 15.00").data, (r"R3").data, (r"K3").data, (r"M3").data,
   (r"D3").data, (r"IT-06-A").data⟩

/-- Witness records for C10: class and lecturer names differing only in
letter case. -/
def cexC10a : CheckConflicts.Rec :=
  ⟨[], (r"03-Nov-25").data, (r"07.30 - 09.30").data, (r"R1").data, (r"K1").data, (r"M1").data,
   (r"Budi").data, (r"IT-06-A").data⟩

def cexC10b : CheckConflicts.Rec :=
  ⟨[], (r"03-Nov-25").data, (r"08.30 - 10.30").data, (r"R2").data, (r"K2").data, (r"M2").data,
   (r"budi").data, (r"it-06-a").data⟩

namespace GenSchedule

/-- An input row with none of the four schedule columns pre-filled (the
all-generated scenario of the round-trip claim). -/
def FreeItem (it : Item) : Prop :=
  it.hari = [] ∧ it.tanggal = [] ∧ it.shift = [] ∧ it.ruangan = []

instance (it : Item) : Decidable (FreeItem it) := by
  unfold FreeItem
  infer_instance

/-- The state-free part of the allocation invariant: well-formed rows, no
same-class overlaps, at most two rows per class and day, and per-slot room
occupancy within the caps (1 for ordinary rooms, 2 for the AULA). -/
def InvOut (rooms : List Str) (outs : List OutRow) : Prop :=
  (∀ o ∈ outs, GoodRow rooms o)
  ∧ outs.Pairwise (fun a b => a.kelas ≠ [] → a.kelas = b.kelas →
      ∀ iv1 iv2, rowInterval a = some iv1 → rowInterval b = some iv2 →
        intervalsOverlap iv1 iv2 = false)
  ∧ (∀ k dk, k ≠ [] → countClass outs k dk ≤ 2)
  ∧ (∀ dk sk rm, (is_aula rm = false → countRoom outs dk sk rm ≤ 1)
      ∧ (is_aula rm = true → countRoom outs dk sk rm ≤ 2))

/-- The full allocation invariant relating the usage maps to the rows
emitted so far. -/
def Inv (rooms : List Str) (st : AState) (outs : List OutRow) : Prop :=
  InvOut rooms outs
  ∧ (∀ o ∈ outs, ∀ iv, rowInterval o = some iv → o.kelas ≠ [] → iv ∈ st.class_usage o.kelas)
  ∧ (∀ k dk, countClass outs k dk ≤ st.class_daily_count k dk)
  ∧ (∀ dk sk rm, countRoom outs dk sk rm ≤ st.room_usage dk sk rm)

end GenSchedule

/-! ## Generic lemmas about the grouping machinery -/

theorem mem_firstDedupAux {α : Type} [DecidableEq α] {l : List α} {a : α} :
    ∀ {seen : List α}, a ∈ firstDedupAux seen l ↔ a ∈ l ∧ a ∉ seen := by
  induction l with
  | nil => intro seen; simp [firstDedupAux]
  | cons x xs ih =>
    intro seen
    by_cases hx : x ∈ seen
    · rw [firstDedupAux, if_pos hx, ih]
      constructor
      · rintro ⟨h1, h2⟩
        exact ⟨by simp [h1], h2⟩
      · rintro ⟨h1, h2⟩
        rcases List.mem_cons.1 h1 with rfl | h1
        · exact absurd hx h2
        · exact ⟨h1, h2⟩
    · rw [firstDedupAux, if_neg hx]
      by_cases hax : a = x
      · subst hax; simp [hx]
      · simp [List.mem_cons, hax, ih]

theorem mem_firstDedup {α : Type} [DecidableEq α] {l : List α} {a : α} :
    a ∈ firstDedup l ↔ a ∈ l := by
  rw [firstDedup, mem_firstDedupAux]
  simp

theorem nodup_firstDedupAux {α : Type} [DecidableEq α] (l : List α) :
    ∀ seen : List α, (firstDedupAux seen l).Nodup := by
  induction l with
  | nil => intro seen; simp [firstDedupAux]
  | cons x xs ih =>
    intro seen
    by_cases hx : x ∈ seen
    · rw [firstDedupAux, if_pos hx]
      exact ih seen
    · rw [firstDedupAux, if_neg hx]
      refine List.nodup_cons.2 ⟨fun hmem => ?_, ih (x :: seen)⟩
      exact (mem_firstDedupAux.1 hmem).2 (by simp)

theorem nodup_firstDedup {α : Type} [DecidableEq α] (l : List α) :
    (firstDedup l).Nodup := nodup_firstDedupAux l []

theorem mem_keysInOrder {α κ : Type} [DecidableEq κ] {key : α → Option κ} {rs : List α} {k : κ} :
    k ∈ keysInOrder key rs ↔ ∃ r ∈ rs, key r = some k := by
  rw [keysInOrder, mem_firstDedup, List.mem_filterMap]

theorem nodup_keysInOrder {α κ : Type} [DecidableEq κ] (key : α → Option κ) (rs : List α) :
    (keysInOrder key rs).Nodup := nodup_firstDedup _

theorem mem_groupOf {α κ : Type} [DecidableEq κ] {key : α → Option κ} {k : κ} {rs : List α}
    {r : α} : r ∈ groupOf key k rs ↔ r ∈ rs ∧ key r = some k := by
  simp [groupOf, List.mem_filter]

theorem groupOf_split {α κ : Type} [DecidableEq κ] {key : α → Option κ} {k : κ}
    {l1 l2 l3 : List α} {a b : α} (ha : key a = some k) (hb : key b = some k) :
    ∃ m1 m2 m3, groupOf key k (l1 ++ a :: l2 ++ b :: l3) = m1 ++ a :: m2 ++ b :: m3 := by
  refine ⟨l1.filter (fun r => decide (key r = some k)), l2.filter (fun r => decide (key r = some k)),
    l3.filter (fun r => decide (key r = some k)), ?_⟩
  simp [groupOf, List.filter_append, List.filter_cons, ha, hb]

/-- `flatMap` of a family that is everywhere `[]` is `[]`. -/
theorem flatMap_eq_nil_all {α β : Type} {l : List α} {f : α → List β}
    (h : ∀ a ∈ l, f a = []) : l.flatMap f = [] := by
  induction l with
  | nil => rfl
  | cons x xs ih =>
    simp only [List.flatMap_cons, h x (by simp), List.nil_append]
    exact ih (fun a ha => h a (by simp [ha]))

theorem countP_flatMap {α β : Type} (p : β → Bool) (l : List α) (f : α → List β) :
    (l.flatMap f).countP p = (l.map (fun a => (f a).countP p)).sum := by
  induction l with
  | nil => rfl
  | cons x xs ih => simp [List.flatMap_cons, List.countP_append, ih]

/-- Sum of a map that vanishes except possibly at one key of a
duplicate-free list. -/
theorem sum_map_single {α : Type} [DecidableEq α] {l : List α} {f : α → Nat} {k : α}
    (hnd : l.Nodup) (h : ∀ x ∈ l, x ≠ k → f x = 0) :
    (l.map f).sum = if k ∈ l then f k else 0 := by
  induction l with
  | nil => simp
  | cons x xs ih =>
    simp only [List.nodup_cons] at hnd
    by_cases hxk : x = k
    · subst hxk
      have : ∀ y ∈ xs, f y = 0 := by
        intro y hy
        exact h y (by simp [hy]) (fun hyk => hnd.1 (hyk ▸ hy))
      have hsum : (xs.map f).sum = 0 := by
        rw [List.sum_eq_zero]
        intro n hn
        rcases List.mem_map.1 hn with ⟨y, hy, rfl⟩
        exact this y hy
      simp [hsum]
    · have := ih hnd.2 (fun y hy => h y (by simp [hy]))
      simp only [List.map_cons, List.sum_cons, this, h x (by simp) hxk]
      simp [List.mem_cons, hxk, Ne.symm hxk]

namespace CheckConflicts

theorem of_mem_overlapPairs {l : List Rec} {a b : Rec} (h : (a, b) ∈ overlapPairs l) :
    a ∈ l ∧ b ∈ l ∧ overlapB a b = true := by
  induction l with
  | nil => simp [overlapPairs] at h
  | cons x xs ih =>
    simp only [overlapPairs, List.mem_append, List.mem_map, List.mem_filter] at h
    rcases h with ⟨y, ⟨hy, hov⟩, heq⟩ | h
    · obtain ⟨rfl, rfl⟩ := Prod.mk.inj heq
      exact ⟨by simp, by simp [hy], hov⟩
    · obtain ⟨ha, hb, hov⟩ := ih h
      exact ⟨by simp [ha], by simp [hb], hov⟩

theorem mem_overlapPairs_of_split {l1 l2 l3 : List Rec} {a b : Rec}
    (hov : overlapB a b = true) :
    (a, b) ∈ overlapPairs (l1 ++ a :: l2 ++ b :: l3) := by
  induction l1 with
  | nil =>
    simp only [List.nil_append, overlapPairs, List.mem_append, List.mem_map, List.mem_filter]
    exact Or.inl ⟨b, ⟨by simp, hov⟩, rfl⟩
  | cons x xs ih =>
    simp only [List.cons_append, overlapPairs, List.mem_append]
    exact Or.inr ih

theorem overlapPairs_eq_nil {l : List Rec}
    (h : l.Pairwise (fun a b => overlapB a b = false)) : overlapPairs l = [] := by
  induction l with
  | nil => rfl
  | cons x xs ih =>
    rcases List.pairwise_cons.1 h with ⟨hx, hxs⟩
    have hfilter : xs.filter (fun y => overlapB x y) = [] := by
      rw [List.filter_eq_nil_iff]
      intro y hy
      simp [hx y hy]
    simp [overlapPairs, hfilter, ih hxs]

theorem overlapPairs_eq_nil_of_short {l : List Rec} (h : l.length ≤ 1) :
    overlapPairs l = [] := by
  match l, h with
  | [], _ => rfl
  | [x], _ => simp [overlapPairs]

/-- The deduplicated list is a sublist of the original. -/
theorem deduplicateAux_sublist (seen : List (Str × Str × Str × Str)) (rs : List Rec) :
    (deduplicateAux seen rs).Sublist rs := by
  induction rs generalizing seen with
  | nil => simp [deduplicateAux]
  | cons r rest ih =>
    simp only [deduplicateAux]
    by_cases h : dedupKey r ∈ seen
    · simp only [if_pos h]
      exact (ih seen).trans (List.sublist_cons_self r rest)
    · simp only [if_neg h]
      exact List.Sublist.cons₂ r (ih _)

theorem deduplicate_sublist (rs : List Rec) : (deduplicate_records rs).Sublist rs :=
  deduplicateAux_sublist [] rs

/-- The overlap test is symmetric. -/
theorem intervalsOverlap_comm (i1 i2 : PyDateTime × PyDateTime) :
    intervalsOverlap i1 i2 = intervalsOverlap i2 i1 := by
  simp [intervalsOverlap, Bool.or_comm]

theorem overlapB_comm (a b : Rec) : overlapB a b = overlapB b a := by
  unfold overlapB
  cases a.interval <;> cases b.interval <;> simp [intervalsOverlap_comm]

end CheckConflicts

namespace CheckConflicts

theorem classKey_eq_some {r : Rec} {p : Str × Str} :
    classKey r = some p ↔
      r.kelas ≠ [] ∧ r.tanggal ≠ [] ∧ r.interval.isSome ∧ p = (r.kelas, r.tanggal) := by
  unfold classKey
  split_ifs with h1 h2
  · simp only [reduceCtorEq, false_iff]
    rintro ⟨hk, ht, -, -⟩
    rcases h1 with h | h
    · exact hk h
    · exact ht h
  · push_neg at h1
    simp only [Option.some.injEq]
    constructor
    · rintro rfl
      exact ⟨h1.1, h1.2, h2, rfl⟩
    · rintro ⟨-, -, -, rfl⟩
      rfl
  · push_neg at h1
    simp only [reduceCtorEq, false_iff]
    rintro ⟨-, -, hs, -⟩
    exact h2 hs

theorem mem_classGroupEntries {k : Str × Str} {items : List Rec} {e : ClassEntry} :
    e ∈ classGroupEntries k items ↔
      (∃ p ∈ overlapPairs items, e = ClassEntry.overlapPair k.1 k.2 p.1 p.2)
      ∨ (2 < items.length ∧ e = ClassEntry.quota k.1 k.2 items) := by
  unfold classGroupEntries
  by_cases h : 2 < items.length
  · simp only [if_pos h, List.mem_append, List.mem_map, List.mem_singleton]
    constructor
    · rintro (⟨p, hp, rfl⟩ | rfl)
      · exact Or.inl ⟨p, hp, rfl⟩
      · exact Or.inr ⟨h, rfl⟩
    · rintro (⟨p, hp, rfl⟩ | ⟨-, rfl⟩)
      · exact Or.inl ⟨p, hp, rfl⟩
      · exact Or.inr rfl
  · simp only [if_neg h, List.append_nil, List.mem_map]
    constructor
    · rintro ⟨p, hp, rfl⟩
      exact Or.inl ⟨p, hp, rfl⟩
    · rintro (⟨p, hp, rfl⟩ | ⟨hlen, -⟩)
      · exact ⟨p, hp, rfl⟩
      · exact absurd hlen h

theorem mem_find_class_conflicts {rs : List Rec} {e : ClassEntry} :
    e ∈ find_class_conflicts rs ↔
      ∃ k, (∃ r ∈ rs, classKey r = some k) ∧ e ∈ classGroupEntries k (groupOf classKey k rs) := by
  unfold find_class_conflicts
  rw [List.mem_flatMap]
  constructor
  · rintro ⟨k, hk, he⟩
    exact ⟨k, mem_keysInOrder.1 hk, he⟩
  · rintro ⟨k, hk, he⟩
    exact ⟨k, mem_keysInOrder.2 hk, he⟩

end CheckConflicts

open CheckConflicts in
/-- C2.  For two distinct records (given by their positions in the record
list) with equal nonempty class and date strings and parseable intervals,
the class-conflict report contains an entry for the pair exactly when the
intervals overlap in the sense `not (end1 <= start2 or start1 >= end2)`. -/
theorem claim_C2_class_pair_iff (rs : List Rec) (r1 r2 : Rec) (l1 l2 l3 : List Rec)
    (iv1 iv2 : PyDateTime × PyDateTime)
    (hsplit : rs = l1 ++ r1 :: l2 ++ r2 :: l3)
    (hkelas : r1.kelas = r2.kelas) (hkne : r1.kelas ≠ [])
    (htgl : r1.tanggal = r2.tanggal) (htne : r1.tanggal ≠ [])
    (hi1 : r1.interval = some iv1) (hi2 : r2.interval = some iv2) :
    (∃ e ∈ find_class_conflicts rs,
        e = ClassEntry.overlapPair r1.kelas r1.tanggal r1 r2
          ∨ e = ClassEntry.overlapPair r1.kelas r1.tanggal r2 r1)
      ↔ intervalsOverlap iv1 iv2 = true := by
  have hk1 : classKey r1 = some (r1.kelas, r1.tanggal) :=
    classKey_eq_some.2 ⟨hkne, htne, by simp [hi1], rfl⟩
  have hk2 : classKey r2 = some (r1.kelas, r1.tanggal) :=
    classKey_eq_some.2 ⟨hkelas ▸ hkne, htgl ▸ htne, by simp [hi2], by rw [hkelas, htgl]⟩
  constructor
  · rintro ⟨e, he, hor⟩
    rcases mem_find_class_conflicts.1 he with ⟨k, -, hin⟩
    rcases mem_classGroupEntries.1 hin with ⟨p, hp, rfl⟩ | ⟨-, heq⟩
    · have hov := (of_mem_overlapPairs hp).2.2
      rcases hor with heq | heq
      · obtain ⟨-, -, h1, h2⟩ := ClassEntry.overlapPair.inj heq
        rw [h1, h2] at hov
        simp only [overlapB, hi1, hi2] at hov
        exact hov
      · obtain ⟨-, -, h1, h2⟩ := ClassEntry.overlapPair.inj heq
        rw [h1, h2] at hov
        simp only [overlapB, hi2, hi1] at hov
        rw [intervalsOverlap_comm] at hov
        exact hov
    · rcases hor with heq | heq <;> rw [heq] at hin <;> simp_all
  · intro hov
    refine ⟨ClassEntry.overlapPair r1.kelas r1.tanggal r1 r2, ?_, Or.inl rfl⟩
    refine mem_find_class_conflicts.2 ⟨(r1.kelas, r1.tanggal),
      ⟨r1, by rw [hsplit]; simp, hk1⟩, ?_⟩
    refine mem_classGroupEntries.2 (Or.inl ⟨(r1, r2), ?_, rfl⟩)
    obtain ⟨m1, m2, m3, hg⟩ := @groupOf_split _ _ _ _ _ l1 l2 l3 _ _ hk1 hk2
    rw [hsplit, hg]
    exact mem_overlapPairs_of_split (by simp only [overlapB, hi1, hi2]; exact hov)

open CheckConflicts in
/-- C3.  For a class `k` and date string `d`, with `n` the number of records
of that class on that date (with parseable intervals, counted regardless of
overlap): the report has exactly one quota entry for `(k, d)` when `n > 2`,
with `TOTAL = n`, and none when `n ≤ 2`. -/
theorem claim_C3_quota (rs : List Rec) (k d : Str) (n : Nat)
    (hk : k ≠ []) (hd : d ≠ [])
    (hn : n = (rs.filter (fun r => r.kelas == k && r.tanggal == d && r.interval.isSome)).length) :
    (2 < n → (find_class_conflicts rs).countP (isQuotaFor k d) = 1
       ∧ ∀ e ∈ find_class_conflicts rs, isQuotaFor k d e = true → quotaTotal e = n)
    ∧ (n ≤ 2 → (find_class_conflicts rs).countP (isQuotaFor k d) = 0) := by
  have hgroup : groupOf classKey (k, d) rs
      = rs.filter (fun r => r.kelas == k && r.tanggal == d && r.interval.isSome) := by
    apply List.filter_congr
    intro r _
    have hiff : classKey r = some (k, d) ↔ (r.kelas = k ∧ r.tanggal = d ∧ r.interval.isSome = true) := by
      constructor
      · intro h
        obtain ⟨h1, h2, h3, h4⟩ := classKey_eq_some.1 h
        obtain ⟨hk1, hd1⟩ := Prod.mk.inj h4
        exact ⟨hk1.symm, hd1.symm, h3⟩
      · rintro ⟨h1, h2, h3⟩
        exact classKey_eq_some.2 ⟨h1 ▸ hk, h2 ▸ hd, h3, by rw [h1, h2]⟩
    rw [Bool.eq_iff_iff]
    simp only [decide_eq_true_eq, beq_iff_eq, Bool.and_eq_true]
    rw [hiff]
    tauto
  have hcount : ∀ key items, (classGroupEntries key items).countP (isQuotaFor k d)
      = if key = (k, d) ∧ 2 < items.length then 1 else 0 := by
    intro key items
    unfold classGroupEntries
    rw [List.countP_append]
    have h1 : ((overlapPairs items).map
        (fun p => ClassEntry.overlapPair key.1 key.2 p.1 p.2)).countP (isQuotaFor k d) = 0 := by
      rw [List.countP_eq_zero]
      intro e he
      rcases List.mem_map.1 he with ⟨p, -, rfl⟩
      simp [isQuotaFor]
    rw [h1]
    by_cases hlen : 2 < items.length
    · simp only [if_pos hlen]
      by_cases hkey : key = (k, d)
      · subst hkey
        simp [List.countP_cons, isQuotaFor, hlen]
      · have hne : ¬(key.1 = k ∧ key.2 = d) := by
          intro hc
          exact hkey (Prod.ext hc.1 hc.2)
        have hb : (key.1 == k && key.2 == d) = false := by
          rcases Decidable.em (key.1 = k) with h1 | h1
          · rcases Decidable.em (key.2 = d) with h2 | h2
            · exact absurd ⟨h1, h2⟩ hne
            · simp [h2]
          · simp [h1]
        rw [if_neg (fun h => hkey h.1)]
        simp [List.countP_cons, isQuotaFor, hb]
    · simp only [if_neg hlen, List.countP_nil]
      rw [if_neg (fun h => hlen h.2)]
  have hmain : (find_class_conflicts rs).countP (isQuotaFor k d)
      = if (k, d) ∈ keysInOrder classKey rs
          then (if 2 < n then 1 else 0) else 0 := by
    unfold find_class_conflicts
    rw [countP_flatMap]
    rw [sum_map_single (nodup_keysInOrder _ _)
      (fun key _ hne => by rw [hcount]; exact if_neg (fun h => hne h.1))]
    by_cases hmem : (k, d) ∈ keysInOrder classKey rs
    · rw [if_pos hmem, if_pos hmem, hcount]
      rw [hgroup, ← hn]
      by_cases h2 : 2 < n
      · rw [if_pos ⟨rfl, h2⟩, if_pos h2]
      · rw [if_neg (fun h => h2 h.2), if_neg h2]
    · rw [if_neg hmem, if_neg hmem]
  constructor
  · intro h2n
    constructor
    · have hmem : (k, d) ∈ keysInOrder classKey rs := by
        have hpos : 0 < (groupOf classKey (k, d) rs).length := by
          rw [hgroup, ← hn]; omega
        rcases List.exists_mem_of_length_pos hpos with ⟨r, hr⟩
        rcases mem_groupOf.1 hr with ⟨hrs, hkey⟩
        exact mem_keysInOrder.2 ⟨r, hrs, hkey⟩
      rw [hmain, if_pos hmem, if_pos h2n]
    · intro e he hq
      rcases mem_find_class_conflicts.1 he with ⟨key, -, hin⟩
      rcases mem_classGroupEntries.1 hin with ⟨p, -, rfl⟩ | ⟨-, rfl⟩
      · simp [isQuotaFor] at hq
      · simp only [isQuotaFor, Bool.and_eq_true, beq_iff_eq] at hq
        have hkey : key = (k, d) := Prod.ext hq.1 hq.2
        subst hkey
        simp only [quotaTotal]
        rw [hgroup, ← hn]
  · intro hle
    rw [hmain]
    by_cases hmem : (k, d) ∈ keysInOrder classKey rs
    · rw [if_pos hmem, if_neg (by omega)]
    · rw [if_neg hmem]

namespace CheckConflicts

theorem roomKey_eq_some {r : Rec} {p : Str × Str × Str} :
    roomKey r = some p ↔
      r.tanggal ≠ [] ∧ r.shift ≠ [] ∧ r.ruangan ≠ [] ∧ p = (r.tanggal, r.shift, r.ruangan) := by
  unfold roomKey
  split_ifs with h1
  · simp only [reduceCtorEq, false_iff]
    rintro ⟨ht, hsh, hru, -⟩
    rcases h1 with h | h | h
    · exact ht h
    · exact hsh h
    · exact hru h
  · push_neg at h1
    simp only [Option.some.injEq]
    constructor
    · rintro rfl
      exact ⟨h1.1, h1.2.1, h1.2.2, rfl⟩
    · rintro ⟨-, -, -, rfl⟩
      rfl

theorem mem_find_room_conflicts {rs : List Rec} {e : RoomEntry} :
    e ∈ find_room_conflicts rs ↔
      ∃ k, (∃ r ∈ rs, roomKey r = some k) ∧ e ∈ roomGroupEntries k (groupOf roomKey k rs) := by
  unfold find_room_conflicts
  rw [List.mem_flatMap]
  constructor
  · rintro ⟨k, hk, he⟩
    exact ⟨k, mem_keysInOrder.1 hk, he⟩
  · rintro ⟨k, hk, he⟩
    exact ⟨k, mem_keysInOrder.2 hk, he⟩

theorem mem_roomGroupEntries {k : Str × Str × Str} {items : List Rec} {e : RoomEntry} :
    e ∈ roomGroupEntries k items ↔
      ¬(isAulaName k.2.2 = true ∧ items.length ≤ 2) ∧ 1 < items.length
        ∧ ∃ it ∈ items, e = ⟨k.1, k.2.1, k.2.2, it⟩ := by
  unfold roomGroupEntries
  by_cases h1 : isAulaName k.2.2 = true ∧ items.length ≤ 2
  · rw [if_pos (by simp [h1.1, h1.2])]
    simp only [List.not_mem_nil, false_iff]
    rintro ⟨hno, -, -⟩
    exact hno h1
  · have hb : (isAulaName k.2.2 && decide (items.length ≤ 2)) = false := by
      rcases Decidable.em (isAulaName k.2.2 = true) with ha | ha
      · have : ¬items.length ≤ 2 := fun hl => h1 ⟨ha, hl⟩
        simp [this]
      · simp [Bool.eq_false_iff.2 ha]
    rw [hb]
    simp only [Bool.false_eq_true, if_false]
    by_cases h2 : 1 < items.length
    · rw [if_pos h2]
      simp only [List.mem_map]
      constructor
      · rintro ⟨it, hit, rfl⟩
        exact ⟨h1, h2, it, hit, rfl⟩
      · rintro ⟨-, -, it, hit, rfl⟩
        exact ⟨it, hit, rfl⟩
    · rw [if_neg h2]
      simp only [List.not_mem_nil, false_iff]
      rintro ⟨-, hl, -⟩
      exact h2 hl

theorem groupOf_roomKey_eq {rs : List Rec} {t s rm : Str}
    (ht : t ≠ []) (hs : s ≠ []) (hr : rm ≠ []) :
    groupOf roomKey (t, s, rm) rs = occupantsOf t s rm rs := by
  apply List.filter_congr
  intro r _
  have hiff : roomKey r = some (t, s, rm) ↔ (r.tanggal = t ∧ r.shift = s ∧ r.ruangan = rm) := by
    constructor
    · intro h
      obtain ⟨-, -, -, h4⟩ := roomKey_eq_some.1 h
      obtain ⟨h5, h6⟩ := Prod.mk.inj h4
      obtain ⟨h7, h8⟩ := Prod.mk.inj h6
      exact ⟨h5.symm, h7.symm, h8.symm⟩
    · rintro ⟨h1, h2, h3⟩
      exact roomKey_eq_some.2 ⟨h1 ▸ ht, h2 ▸ hs, h3 ▸ hr, by rw [h1, h2, h3]⟩
  rw [Bool.eq_iff_iff]
  simp only [decide_eq_true_eq, beq_iff_eq, Bool.and_eq_true]
  rw [hiff]
  tauto

end CheckConflicts

open CheckConflicts in
/-- C4.  Per (date, shift, room) slot: an over-booked ordinary room (more
than one occupant) reports every occupant; the AULA reports nothing up to
two occupants and every occupant beyond that; within the caps nothing from
that slot is reported. -/
theorem claim_C4_room_slots (rs : List Rec) (t s rm : Str)
    (ht : t ≠ []) (hs : s ≠ []) (hr : rm ≠ []) :
    (isAulaName rm = false → 1 < (occupantsOf t s rm rs).length →
      ∀ r ∈ occupantsOf t s rm rs, (⟨t, s, rm, r⟩ : RoomEntry) ∈ find_room_conflicts rs)
    ∧ (isAulaName rm = false → (occupantsOf t s rm rs).length ≤ 1 →
      ∀ e ∈ find_room_conflicts rs, ¬(e.tanggal = t ∧ e.shift = s ∧ e.ruangan = rm))
    ∧ (isAulaName rm = true → 2 < (occupantsOf t s rm rs).length →
      ∀ r ∈ occupantsOf t s rm rs, (⟨t, s, rm, r⟩ : RoomEntry) ∈ find_room_conflicts rs)
    ∧ (isAulaName rm = true → (occupantsOf t s rm rs).length ≤ 2 →
      ∀ e ∈ find_room_conflicts rs, ¬(e.tanggal = t ∧ e.shift = s ∧ e.ruangan = rm)) := by
  have hgroup := @groupOf_roomKey_eq rs _ _ _ ht hs hr
  have hpresent : ∀ r ∈ occupantsOf t s rm rs,
      ¬(isAulaName rm = true ∧ (occupantsOf t s rm rs).length ≤ 2) →
      1 < (occupantsOf t s rm rs).length →
      (⟨t, s, rm, r⟩ : RoomEntry) ∈ find_room_conflicts rs := by
    intro r hocc hno hlen
    have hfields : r.tanggal = t ∧ r.shift = s ∧ r.ruangan = rm := by
      have := (List.mem_filter.1 hocc).2
      simp only [Bool.and_eq_true, beq_iff_eq] at this
      exact ⟨this.1.1, this.1.2, this.2⟩
    refine mem_find_room_conflicts.2 ⟨(t, s, rm), ⟨r, (List.mem_filter.1 hocc).1,
      roomKey_eq_some.2 ⟨hfields.1 ▸ ht, hfields.2.1 ▸ hs, hfields.2.2 ▸ hr,
        by rw [hfields.1, hfields.2.1, hfields.2.2]⟩⟩, ?_⟩
    rw [hgroup]
    exact mem_roomGroupEntries.2 ⟨hno, hlen, r, hocc, rfl⟩
  have habsent : ¬(¬(isAulaName rm = true ∧ (occupantsOf t s rm rs).length ≤ 2)
        ∧ 1 < (occupantsOf t s rm rs).length) →
      ∀ e ∈ find_room_conflicts rs, ¬(e.tanggal = t ∧ e.shift = s ∧ e.ruangan = rm) := by
    intro hcond e he hfields
    rcases mem_find_room_conflicts.1 he with ⟨k, -, hin⟩
    rcases mem_roomGroupEntries.1 hin with ⟨hno, hlen, it, hit, rfl⟩
    have hk : k = (t, s, rm) := by
      obtain ⟨h1, h2, h3⟩ := hfields
      exact Prod.ext h1 (Prod.ext h2 h3)
    subst hk
    rw [hgroup] at hno hlen
    exact hcond ⟨hno, hlen⟩
  refine ⟨?_, ?_, ?_, ?_⟩
  · intro haula hlen r hocc
    exact hpresent r hocc (fun hc => by rw [haula] at hc; exact absurd hc.1 (by simp)) hlen
  · intro haula hlen
    exact habsent (fun hc => absurd hc.2 (by omega))
  · intro haula hlen r hocc
    exact hpresent r hocc (fun hc => by omega) (by omega)
  · intro haula hlen
    exact habsent (fun hc => hc.1 ⟨haula, hlen⟩)

namespace CheckConflicts

theorem dosenKey_eq_some {r : Rec} {d : Str} :
    dosenKey r = some d ↔ pyStrip r.dosen ≠ [] ∧ r.interval.isSome ∧ d = pyStrip r.dosen := by
  unfold dosenKey
  split_ifs with h1 h2
  · simp only [reduceCtorEq, false_iff]
    rintro ⟨hd, -, -⟩
    exact hd h1
  · simp only [Option.some.injEq]
    constructor
    · rintro rfl
      exact ⟨h1, h2, rfl⟩
    · rintro ⟨-, -, rfl⟩
      rfl
  · simp only [reduceCtorEq, false_iff]
    rintro ⟨-, hs, -⟩
    exact h2 hs

theorem mem_find_dosen_conflicts {rs : List Rec} {e : DosenEntry} :
    e ∈ find_dosen_conflicts rs ↔
      ∃ d, (∃ r ∈ rs, dosenKey r = some d)
        ∧ ∃ p ∈ overlapPairs (groupOf dosenKey d rs), e = ⟨d, p.1, p.2⟩ := by
  unfold find_dosen_conflicts
  rw [List.mem_flatMap]
  constructor
  · rintro ⟨d, hd, he⟩
    rcases List.mem_map.1 he with ⟨p, hp, rfl⟩
    exact ⟨d, mem_keysInOrder.1 hd, p, hp, rfl⟩
  · rintro ⟨d, hd, p, hp, rfl⟩
    exact ⟨d, mem_keysInOrder.2 hd, List.mem_map.2 ⟨p, hp, rfl⟩⟩

/-- Everything knowable about a pairwise class-conflict entry in the
report. -/
theorem overlapPair_mem_fields {rs : List Rec} {k t : Str} {a b : Rec}
    (h : ClassEntry.overlapPair k t a b ∈ find_class_conflicts rs) :
    a ∈ rs ∧ b ∈ rs ∧ a.kelas = k ∧ b.kelas = k ∧ a.tanggal = t ∧ b.tanggal = t
      ∧ a.interval.isSome ∧ b.interval.isSome := by
  rcases mem_find_class_conflicts.1 h with ⟨kk, -, hin⟩
  rcases mem_classGroupEntries.1 hin with ⟨p, hp, heq⟩ | ⟨-, heq⟩
  · obtain ⟨h1, h2, h3, h4⟩ := ClassEntry.overlapPair.inj heq
    have hp2 : (a, b) ∈ overlapPairs (groupOf classKey kk rs) := by
      rw [h3, h4, Prod.mk.eta]
      exact hp
    obtain ⟨hag, hbg, -⟩ := of_mem_overlapPairs hp2
    obtain ⟨hars, hakey⟩ := mem_groupOf.1 hag
    obtain ⟨hbrs, hbkey⟩ := mem_groupOf.1 hbg
    obtain ⟨-, -, hai, hak⟩ := classKey_eq_some.1 hakey
    obtain ⟨-, -, hbi, hbk⟩ := classKey_eq_some.1 hbkey
    have hka1 : a.kelas = k := by rw [h1, hak]
    have hka2 : a.tanggal = t := by rw [h2, hak]
    have hkb1 : b.kelas = k := by rw [h1, hbk]
    have hkb2 : b.tanggal = t := by rw [h2, hbk]
    exact ⟨hars, hbrs, hka1, hkb1, hka2, hkb2, hai, hbi⟩
  · exact absurd heq (by simp)

/-- A quota entry's item list is exactly its (class, date) group. -/
theorem quota_mem_fields {rs : List Rec} {k t : Str} {its : List Rec}
    (h : ClassEntry.quota k t its ∈ find_class_conflicts rs) :
    its = groupOf classKey (k, t) rs := by
  rcases mem_find_class_conflicts.1 h with ⟨kk, -, hin⟩
  rcases mem_classGroupEntries.1 hin with ⟨p, -, heq⟩ | ⟨-, heq⟩
  · exact absurd heq (by simp)
  · obtain ⟨h1, h2, h3⟩ := ClassEntry.quota.inj heq
    have hkk : kk = (k, t) := by rw [Prod.ext_iff]; exact ⟨h1.symm, h2.symm⟩
    rw [h3, hkk]

/-- Everything knowable about a lecturer-conflict entry in the report. -/
theorem dosenEntry_mem_fields {rs : List Rec} {d : Str} {a b : Rec}
    (h : (⟨d, a, b⟩ : DosenEntry) ∈ find_dosen_conflicts rs) :
    a ∈ rs ∧ b ∈ rs ∧ pyStrip a.dosen = d ∧ pyStrip b.dosen = d ∧ d ≠ []
      ∧ a.interval.isSome ∧ b.interval.isSome := by
  rcases mem_find_dosen_conflicts.1 h with ⟨dd, -, p, hp, heq⟩
  obtain ⟨h1, h2, h3⟩ := DosenEntry.mk.inj heq
  have hp2 : (a, b) ∈ overlapPairs (groupOf dosenKey dd rs) := by
    rw [h2, h3, Prod.mk.eta]
    exact hp
  obtain ⟨hag, hbg, -⟩ := of_mem_overlapPairs hp2
  obtain ⟨hars, hakey⟩ := mem_groupOf.1 hag
  obtain ⟨hbrs, hbkey⟩ := mem_groupOf.1 hbg
  obtain ⟨hane, hai, hada⟩ := dosenKey_eq_some.1 hakey
  obtain ⟨-, hbi, hbdb⟩ := dosenKey_eq_some.1 hbkey
  subst h1
  exact ⟨hars, hbrs, hada.symm, hbdb.symm, hada ▸ hane, hai, hbi⟩

/-- Membership in the blackout report. -/
theorem mem_find_blacklist {rs : List Rec} {e : BlackEntry} :
    e ∈ find_blacklist_violations rs ↔
      ∃ r ∈ rs, ∃ iv, r.interval = some iv ∧ pyStrip r.ruangan ≠ []
        ∧ is_room_blacklisted_on_date (pyStrip r.ruangan) iv.1.date = true ∧ e = ⟨r⟩ := by
  unfold find_blacklist_violations
  rw [List.mem_filterMap]
  constructor
  · rintro ⟨r, hr, hfr⟩
    refine ⟨r, hr, ?_⟩
    revert hfr
    cases hri : r.interval with
    | none => simp
    | some iv =>
      simp only
      split_ifs with hroom hblk
      · simp
      · rintro ⟨rfl⟩
        exact ⟨iv, rfl, hroom, hblk, rfl⟩
      · simp
  · rintro ⟨r, hr, iv, hiv, hroom, hblk, rfl⟩
    refine ⟨r, hr, ?_⟩
    simp only [hiv]
    rw [if_neg (by simpa using hroom), if_pos hblk]

end CheckConflicts

open CheckConflicts in
/-- C9 (amended).  A record whose (date, shift-range) pair fails to parse —
`parse_time_range` returns `None`, and the failure is not the uncaught
`time(h, m)` `ValueError` that would abort the whole run (`parse_time_crashes`
is `false`, i.e. the date is rejected by all three formats, or the shift
fails inside the `try` block) — is excluded from every interval-based
report: it appears in no pairwise class entry, is not counted by any quota
entry, and appears in no lecturer or blackout entry.  (It can, however,
still appear in the room double-booking report, which groups raw strings —
see the counterexample.) -/
theorem C9_amended_unparseable_excluded (rs : List Rec) (x : Rec)
    (hx : x.interval = none)
    (hnc : parse_time_crashes x.tanggal x.shift = false) :
    (∀ e ∈ find_class_conflicts rs,
        (∀ k t a b, e = ClassEntry.overlapPair k t a b → a ≠ x ∧ b ≠ x)
        ∧ (∀ k t its, e = ClassEntry.quota k t its → x ∉ its))
    ∧ (∀ e ∈ find_dosen_conflicts rs, e.a ≠ x ∧ e.b ≠ x)
    ∧ (∀ e ∈ find_blacklist_violations rs, e.rcd ≠ x) := by
  refine ⟨fun e he => ⟨?_, ?_⟩, fun e he => ?_, fun e he => ?_⟩
  · rintro k t a b rfl
    obtain ⟨-, -, -, -, -, -, hai, hbi⟩ := overlapPair_mem_fields he
    constructor
    · rintro rfl
      rw [hx] at hai
      simp at hai
    · rintro rfl
      rw [hx] at hbi
      simp at hbi
  · rintro k t its rfl hxits
    have hits := quota_mem_fields he
    have := (mem_groupOf.1 (hits ▸ hxits)).2
    obtain ⟨-, -, hi, -⟩ := classKey_eq_some.1 this
    rw [hx] at hi
    simp at hi
  · obtain ⟨d, a, b⟩ := e
    obtain ⟨-, -, -, -, -, hai, hbi⟩ := dosenEntry_mem_fields he
    constructor
    · rintro rfl
      rw [hx] at hai
      simp at hai
    · rintro rfl
      rw [hx] at hbi
      simp at hbi
  · rcases mem_find_blacklist.1 he with ⟨r, -, iv, hiv, -, -, rfl⟩
    intro hex
    simp only at hex
    rw [hex, hx] at hiv
    exact Option.noConfusion hiv

open CheckConflicts in
/-- C9 (counterexample).  A record with an unparseable time is retained by
deduplication and nevertheless appears in the room double-booking report,
because that report groups by raw strings and never consults the
interval. -/
theorem C9_cex_room_report :
    parse_time_range cexC9a.tanggal cexC9a.shift = none
    ∧ deduplicate_records [cexC9a, cexC9b] = [cexC9a, cexC9b]
    ∧ (∃ e ∈ find_room_conflicts (deduplicate_records [cexC9a, cexC9b]), e.rcd = cexC9a) := by
  refine ⟨by decide, by decide, ?_⟩
  refine ⟨⟨cexC9a.tanggal, cexC9a.shift, cexC9a.ruangan, cexC9a⟩, ?_, rfl⟩
  have h : find_room_conflicts (deduplicate_records [cexC9a, cexC9b]) =
      [⟨cexC9a.tanggal, cexC9a.shift, cexC9a.ruangan, cexC9a⟩,
       ⟨cexC9a.tanggal, cexC9a.shift, cexC9a.ruangan, cexC9b⟩] := by rfl
  rw [h]
  simp

open CheckConflicts in
/-- C10.  Class and lecturer grouping is by the exact (stripped) string,
case-sensitively: records whose class identifiers (resp. lecturer names)
agree only up to letter case but differ as stripped strings are never
reported together. -/
theorem claim_C10_case_sensitive (rs : List Rec) (r1 r2 : Rec) :
    ((pyLower (pyStrip r1.kelas) = pyLower (pyStrip r2.kelas)) →
      pyStrip r1.kelas ≠ pyStrip r2.kelas →
      ∀ e ∈ find_class_conflicts rs, ∀ k t,
        e ≠ ClassEntry.overlapPair k t r1 r2 ∧ e ≠ ClassEntry.overlapPair k t r2 r1)
    ∧ ((pyLower (pyStrip r1.dosen) = pyLower (pyStrip r2.dosen)) →
      pyStrip r1.dosen ≠ pyStrip r2.dosen →
      ∀ e ∈ find_dosen_conflicts rs,
        ¬((e.a = r1 ∧ e.b = r2) ∨ (e.a = r2 ∧ e.b = r1))) := by
  constructor
  · intro _ hne e he k t
    constructor
    · rintro rfl
      obtain ⟨-, -, h1, h2, -⟩ := overlapPair_mem_fields he
      exact hne (by rw [h1, h2])
    · rintro rfl
      obtain ⟨-, -, h1, h2, -⟩ := overlapPair_mem_fields he
      exact hne (by rw [h1, h2])
  · intro _ hne e he hor
    obtain ⟨d, a, b⟩ := e
    obtain ⟨-, -, h1, h2, -⟩ := dosenEntry_mem_fields he
    simp only at hor
    rcases hor with ⟨ha, hb⟩ | ⟨ha, hb⟩
    · exact hne (by rw [← ha, ← hb, h1, h2])
    · exact hne (by rw [← ha, ← hb, h2, h1])

open CheckConflicts in
/-- Witness for C2 at the spec's scenario records. -/
theorem claim_C2_class_pair_iff_witness :
    (cexC2a.kelas = cexC2b.kelas ∧ cexC2a.kelas ≠ [] ∧ cexC2a.tanggal = cexC2b.tanggal
      ∧ cexC2a.tanggal ≠ []
      ∧ cexC2a.interval = some (⟨⟨2025, 11, 3⟩, 450⟩, ⟨⟨2025, 11, 3⟩, 570⟩)
      ∧ cexC2b.interval = some (⟨⟨2025, 11, 3⟩, 510⟩, ⟨⟨2025, 11, 3⟩, 630⟩))
    ∧ ((∃ e ∈ find_class_conflicts [cexC2a, cexC2b],
          e = ClassEntry.overlapPair cexC2a.kelas cexC2a.tanggal cexC2a cexC2b
            ∨ e = ClassEntry.overlapPair cexC2a.kelas cexC2a.tanggal cexC2b cexC2a)
        ↔ intervalsOverlap (⟨⟨2025, 11, 3⟩, 450⟩, ⟨⟨2025, 11, 3⟩, 570⟩)
            (⟨⟨2025, 11, 3⟩, 510⟩, ⟨⟨2025, 11, 3⟩, 630⟩) = true) :=
  ⟨⟨rfl, by decide, rfl, by decide, by decide, by decide⟩,
   claim_C2_class_pair_iff [cexC2a, cexC2b] cexC2a cexC2b [] [] [] _ _ rfl rfl (by decide) rfl
     (by decide) (by decide) (by decide)⟩

open CheckConflicts in
/-- Witness for C3 at the spec's quota scenario. -/
theorem claim_C3_quota_witness :
    ((r"IT-06-A").data ≠ ([] : Str) ∧ (r"03-Nov-25").data ≠ ([] : Str)
      ∧ (3 : Nat) = (([cexC3a, cexC3b, cexC3c]).filter
          (fun r => r.kelas == (r"IT-06-A").data && r.tanggal == (r"03-Nov-25").data
            && r.interval.isSome)).length)
    ∧ ((2 < 3 →
        (find_class_conflicts [cexC3a, cexC3b, cexC3c]).countP
            (isQuotaFor (r"IT-06-A").data (r"03-Nov-25").data) = 1
          ∧ ∀ e ∈ find_class_conflicts [cexC3a, cexC3b, cexC3c],
            isQuotaFor (r"IT-06-A").data (r"03-Nov-25").data e = true → quotaTotal e = 3)
      ∧ (3 ≤ 2 →
        (find_class_conflicts [cexC3a, cexC3b, cexC3c]).countP
            (isQuotaFor (r"IT-06-A").data (r"03-Nov-25").data) = 0)) :=
  ⟨⟨by decide, by decide, by decide⟩,
   claim_C3_quota [cexC3a, cexC3b, cexC3c] (r"IT-06-A").data (r"03-Nov-25").data 3
     (by decide) (by decide) (by decide)⟩

open CheckConflicts in
/-- Witness for C4 at a doubly-booked ordinary room. -/
theorem claim_C4_room_slots_witness :
    ((r"xx").data ≠ ([] : Str) ∧ (r"yy-zz").data ≠ ([] : Str) ∧ (r"R1").data ≠ ([] : Str))
    ∧ ((isAulaName (r"R1").data = false →
          1 < (occupantsOf (r"xx").data (r"yy-zz").data (r"R1").data [cexC9a, cexC9b]).length →
          ∀ r ∈ occupantsOf (r"xx").data (r"yy-zz").data (r"R1").data [cexC9a, cexC9b],
            (⟨(r"xx").data, (r"yy-zz").data, (r"R1").data, r⟩ : RoomEntry)
              ∈ find_room_conflicts [cexC9a, cexC9b])
      ∧ (isAulaName (r"R1").data = false →
          (occupantsOf (r"xx").data (r"yy-zz").data (r"R1").data [cexC9a, cexC9b]).length ≤ 1 →
          ∀ e ∈ find_room_conflicts [cexC9a, cexC9b],
            ¬(e.tanggal = (r"xx").data ∧ e.shift = (r"yy-zz").data ∧ e.ruangan = (r"R1").data))
      ∧ (isAulaName (r"R1").data = true →
          2 < (occupantsOf (r"xx").data (r"yy-zz").data (r"R1").data [cexC9a, cexC9b]).length →
          ∀ r ∈ occupantsOf (r"xx").data (r"yy-zz").data (r"R1").data [cexC9a, cexC9b],
            (⟨(r"xx").data, (r"yy-zz").data, (r"R1").data, r⟩ : RoomEntry)
              ∈ find_room_conflicts [cexC9a, cexC9b])
      ∧ (isAulaName (r"R1").data = true →
          (occupantsOf (r"xx").data (r"yy-zz").data (r"R1").data [cexC9a, cexC9b]).length ≤ 2 →
          ∀ e ∈ find_room_conflicts [cexC9a, cexC9b],
            ¬(e.tanggal = (r"xx").data ∧ e.shift = (r"yy-zz").data ∧ e.ruangan = (r"R1").data))) :=
  ⟨⟨by decide, by decide, by decide⟩,
   claim_C4_room_slots [cexC9a, cexC9b] (r"xx").data (r"yy-zz").data (r"R1").data
     (by decide) (by decide) (by decide)⟩

open CheckConflicts in
/-- Witness for the amended C9 at a concrete unparseable record. -/
theorem C9_amended_unparseable_excluded_witness :
    (cexC9a.interval = none ∧ parse_time_crashes cexC9a.tanggal cexC9a.shift = false)
    ∧ ((∀ e ∈ find_class_conflicts [cexC9a, cexC9b],
          (∀ k t a b, e = ClassEntry.overlapPair k t a b → a ≠ cexC9a ∧ b ≠ cexC9a)
          ∧ (∀ k t its, e = ClassEntry.quota k t its → cexC9a ∉ its))
      ∧ (∀ e ∈ find_dosen_conflicts [cexC9a, cexC9b], e.a ≠ cexC9a ∧ e.b ≠ cexC9a)
      ∧ (∀ e ∈ find_blacklist_violations [cexC9a, cexC9b], e.rcd ≠ cexC9a)) :=
  ⟨⟨by decide, by decide⟩,
   C9_amended_unparseable_excluded [cexC9a, cexC9b] cexC9a (by decide) (by decide)⟩

open CheckConflicts in
/-- Witness for C10 at records differing only in letter case. -/
theorem claim_C10_case_sensitive_witness :
    (pyLower (pyStrip cexC10a.kelas) = pyLower (pyStrip cexC10b.kelas)
      ∧ pyStrip cexC10a.kelas ≠ pyStrip cexC10b.kelas
      ∧ pyLower (pyStrip cexC10a.dosen) = pyLower (pyStrip cexC10b.dosen)
      ∧ pyStrip cexC10a.dosen ≠ pyStrip cexC10b.dosen)
    ∧ (∀ e ∈ find_class_conflicts [cexC10a, cexC10b], ∀ k t,
        e ≠ ClassEntry.overlapPair k t cexC10a cexC10b
          ∧ e ≠ ClassEntry.overlapPair k t cexC10b cexC10a)
    ∧ (∀ e ∈ find_dosen_conflicts [cexC10a, cexC10b],
        ¬((e.a = cexC10a ∧ e.b = cexC10b) ∨ (e.a = cexC10b ∧ e.b = cexC10a))) :=
  ⟨⟨by decide, by decide, by decide, by decide⟩,
   (claim_C10_case_sensitive [cexC10a, cexC10b] cexC10a cexC10b).1 (by decide) (by decide),
   (claim_C10_case_sensitive [cexC10a, cexC10b] cexC10a cexC10b).2 (by decide) (by decide)⟩

open CheckConflicts in
/-- C5.  The auditor's blacklist predicate holds exactly on dates in the
inclusive window 2025-11-03..2025-11-07 whose room name ends with a Mon-Fri
suffix (weekday ≤ 4) or a Mon-Wed suffix (weekday ≤ 2); in particular room
`KTT 2.08` on Monday 2025-11-03 yields a blackout violation and the same
room on 2025-11-10 yields none. -/
theorem claim_C5_blacklist_predicate :
    (∀ room d, is_room_blacklisted_on_date room d = true ↔
      ((START_DATE.toOrdinal ≤ d.toOrdinal ∧ d.toOrdinal ≤ END_DATE.toOrdinal)
        ∧ ((∃ suf ∈ BLACKLIST_MON_FRI_SUFFIXES, pyEndsWith room suf = true) ∧ d.weekday ≤ 4
          ∨ (∃ suf ∈ BLACKLIST_MON_WED_SUFFIXES, pyEndsWith room suf = true) ∧ d.weekday ≤ 2)))
    ∧ find_blacklist_violations [cexC5a] = [⟨cexC5a⟩]
    ∧ find_blacklist_violations [cexC5b] = [] := by
  refine ⟨?_, by rfl, by rfl⟩
  intro room d
  unfold is_room_blacklisted_on_date
  split_ifs with h1 h2 h3
  · simp only [Bool.false_eq_true, false_iff]
    rintro ⟨⟨hw1, hw2⟩, -⟩
    rw [Bool.not_eq_true'] at h1
    unfold is_within_uts_week at h1
    simp only [Bool.and_eq_false_iff, decide_eq_false_iff_not] at h1
    rcases h1 with h | h
    · exact h hw1
    · exact h hw2
  · simp only [true_iff]
    have hwit : is_within_uts_week d = true := by
      rcases Bool.eq_false_or_eq_true (is_within_uts_week d) with h | h
      · exact h
      · exact absurd (by rw [h]; rfl) h1
    unfold is_within_uts_week at hwit
    simp only [Bool.and_eq_true, decide_eq_true_eq] at hwit
    refine ⟨hwit, Or.inl ?_⟩
    rw [List.any_eq_true] at h2
    rcases h2 with ⟨suf, hsuf, hp⟩
    simp only [Bool.and_eq_true, decide_eq_true_eq] at hp
    exact ⟨⟨suf, hsuf, hp.1⟩, hp.2⟩
  · simp only [true_iff]
    have hwit : is_within_uts_week d = true := by
      rcases Bool.eq_false_or_eq_true (is_within_uts_week d) with h | h
      · exact h
      · exact absurd (by rw [h]; rfl) h1
    unfold is_within_uts_week at hwit
    simp only [Bool.and_eq_true, decide_eq_true_eq] at hwit
    refine ⟨hwit, Or.inr ?_⟩
    rw [List.any_eq_true] at h3
    rcases h3 with ⟨suf, hsuf, hp⟩
    simp only [Bool.and_eq_true, decide_eq_true_eq] at hp
    exact ⟨⟨suf, hsuf, hp.1⟩, hp.2⟩
  · simp only [Bool.false_eq_true, false_iff]
    rintro ⟨-, hcase⟩
    rcases hcase with ⟨⟨suf, hsuf, hp⟩, hw⟩ | ⟨⟨suf, hsuf, hp⟩, hw⟩
    · rw [List.any_eq_true] at h2
      exact h2 ⟨suf, hsuf, by simp [hp, hw]⟩
    · rw [List.any_eq_true] at h3
      exact h3 ⟨suf, hsuf, by simp [hp, hw]⟩

/-- C6.  The allocator's and the auditor's blacklist predicates disagree:
the auditor (and fix_blacklisted_rooms.py) blacklist the `KTT …` rooms
while generate_schedule.py blacklists `KELAS …` rooms, so the two
predicates differ on both families of room names during the exam week. -/
theorem claim_C6_blacklist_mismatch :
    GenSchedule.is_room_blacklisted_on_date (r"KTT 2.08").data ⟨2025, 11, 3⟩ = false
    ∧ CheckConflicts.is_room_blacklisted_on_date (r"KTT 2.08").data ⟨2025, 11, 3⟩ = true
    ∧ GenSchedule.is_room_blacklisted_on_date (r"KELAS 2.08").data ⟨2025, 11, 3⟩ = true
    ∧ CheckConflicts.is_room_blacklisted_on_date (r"KELAS 2.08").data ⟨2025, 11, 3⟩ = false := by
  refine ⟨by decide, by decide, by decide, by decide⟩

namespace GenSchedule

theorem mem_pickCandidates_aula {rooms : List Str} {st : AState} {d : PyDate} {dk sk : Str}
    {s : PyDateTime} {bentuk : Str} {allowAula : Bool} {jumlah : Int} {rm : Str}
    (h : rm ∈ (pickCandidates rooms st d dk sk s bentuk allowAula jumlah).1) :
    rm ∈ rooms ∧ is_aula rm = true ∧ allowAula = true
      ∧ pyLower (pyStrip bentuk) = ujianTulisStr ∧ 0 < jumlah ∧ 40 ≤ jumlah
      ∧ st.room_usage dk sk rm < 2 ∧ is_aula_time_allowed d s = true := by
  induction rooms with
  | nil => simp [pickCandidates] at h
  | cons rm0 rest ih =>
    rw [pickCandidates] at h
    split_ifs at h with hb ha hna hel hocc hfree
    · obtain ⟨h1, h2⟩ := ih h
      exact ⟨by simp [h2.1, h1], h2⟩
    · obtain ⟨h1, h2⟩ := ih h
      exact ⟨by simp [h2.1, h1], h2⟩
    · obtain ⟨h1, h2⟩ := ih h
      exact ⟨by simp [h2.1, h1], h2⟩
    · rcases List.mem_cons.1 h with rfl | h
      · rw [Bool.not_eq_true] at hna
        rw [Bool.not_eq_false'] at hna
        rw [Bool.not_eq_true] at hel
        simp only [Bool.or_eq_false_iff, decide_eq_false_iff_not, Bool.not_eq_false',
          beq_iff_eq] at hel
        simp only [Bool.and_eq_true, decide_eq_true_eq] at hocc
        exact ⟨by simp, ha, hna, hel.1.1, by omega, by omega, hocc.1, hocc.2⟩
      · obtain ⟨h1, h2⟩ := ih h
        exact ⟨by simp [h2.1, h1], h2⟩
    · obtain ⟨h1, h2⟩ := ih h
      exact ⟨by simp [h2.1, h1], h2⟩
    · obtain ⟨h1, h2⟩ := ih h
      exact ⟨by simp [h2.1, h1], h2⟩
    · obtain ⟨h1, h2⟩ := ih h
      exact ⟨by simp [h2.1, h1], h2⟩

theorem mem_pickCandidates_normal {rooms : List Str} {st : AState} {d : PyDate} {dk sk : Str}
    {s : PyDateTime} {bentuk : Str} {allowAula : Bool} {jumlah : Int} {rm : Str}
    (h : rm ∈ (pickCandidates rooms st d dk sk s bentuk allowAula jumlah).2) :
    rm ∈ rooms ∧ is_aula rm = false ∧ st.room_usage dk sk rm = 0 := by
  induction rooms with
  | nil => simp [pickCandidates] at h
  | cons rm0 rest ih =>
    rw [pickCandidates] at h
    split_ifs at h with hb ha hna hel hocc hfree
    · obtain ⟨h1, h2⟩ := ih h
      exact ⟨by simp [h1], h2⟩
    · obtain ⟨h1, h2⟩ := ih h
      exact ⟨by simp [h1], h2⟩
    · obtain ⟨h1, h2⟩ := ih h
      exact ⟨by simp [h1], h2⟩
    · obtain ⟨h1, h2⟩ := ih h
      exact ⟨by simp [h1], h2⟩
    · obtain ⟨h1, h2⟩ := ih h
      exact ⟨by simp [h1], h2⟩
    · rcases List.mem_cons.1 h with rfl | h
      · exact ⟨by simp, Bool.not_eq_true _ ▸ ha, hfree⟩
      · obtain ⟨h1, h2⟩ := ih h
        exact ⟨by simp [h1], h2⟩
    · obtain ⟨h1, h2⟩ := ih h
      exact ⟨by simp [h1], h2⟩

/-- `pyChoice` returns a member of the list. -/
theorem pyChoice_mem {l : List Str} {rm : Str} (h : pyChoice l = some rm) : rm ∈ l :=
  List.mem_of_mem_head? h

/-- The room returned by `pick_free_room` is one of its candidates. -/
theorem pick_free_room_mem {rooms : List Str} {st : AState} {d : PyDate} {dk sk : Str}
    {s : PyDateTime} {bentuk : Str} {allowAula : Bool} {jumlah : Int} {rm : Str}
    (h : pick_free_room rooms st d dk sk s bentuk allowAula jumlah = some rm) :
    rm ∈ (pickCandidates rooms st d dk sk s bentuk allowAula jumlah).1
      ∨ rm ∈ (pickCandidates rooms st d dk sk s bentuk allowAula jumlah).2 := by
  simp only [pick_free_room] at h
  split_ifs at h
  all_goals
    first
    | exact Option.noConfusion h
    | exact Or.inl (pyChoice_mem h)
    | exact Or.inr (pyChoice_mem h)
    | (cases h; exact Or.inl (by assumption))

end GenSchedule

open GenSchedule in
/-- C7.  Whenever `pick_free_room` returns the auditorium, the record is a
written exam (case-insensitively `ujian tulis`), its head-count is at least
40, the auditorium's occupancy at that slot is below 2, and the slot lies in
the auditorium time window. -/
theorem claim_C7_pick_free_room_aula (rooms : List Str) (st : AState) (d : PyDate)
    (dk sk : Str) (s : PyDateTime) (bentuk : Str) (allowAula : Bool) (jumlah : Int) (rm : Str)
    (hp : pick_free_room rooms st d dk sk s bentuk allowAula jumlah = some rm)
    (ha : is_aula rm = true) :
    pyLower (pyStrip bentuk) = ujianTulisStr ∧ 40 ≤ jumlah
      ∧ st.room_usage dk sk rm < 2 ∧ is_aula_time_allowed d s = true := by
  rcases pick_free_room_mem hp with hm | hm
  · obtain ⟨-, -, -, h4, -, h6, h7, h8⟩ := mem_pickCandidates_aula hm
    exact ⟨h4, h6, h7, h8⟩
  · obtain ⟨-, h2, -⟩ := mem_pickCandidates_normal hm
    rw [ha] at h2
    exact absurd h2 (by simp)

open GenSchedule in
/-- Witness for C7: a concrete call that returns the AULA. -/
theorem claim_C7_pick_free_room_aula_witness :
    (pick_free_room [(r"AULA").data] initState ⟨2025, 11, 3⟩ [] []
        ⟨⟨2025, 11, 3⟩, 450⟩ (r"Ujian Tulis").data true 45 = some AULA_NAME
      ∧ is_aula AULA_NAME = true)
    ∧ (pyLower (pyStrip (r"Ujian Tulis").data) = ujianTulisStr ∧ (40 : Int) ≤ 45
      ∧ initState.room_usage [] [] AULA_NAME < 2
      ∧ is_aula_time_allowed ⟨2025, 11, 3⟩ ⟨⟨2025, 11, 3⟩, 450⟩ = true) :=
  ⟨⟨by decide, by decide⟩,
   claim_C7_pick_free_room_aula [(r"AULA").data] initState ⟨2025, 11, 3⟩ [] []
     ⟨⟨2025, 11, 3⟩, 450⟩ (r"Ujian Tulis").data true 45 AULA_NAME (by decide) (by decide)⟩

/-- C8 (counterexample).  Two written exams with head-counts 45 and 40 whose
class identifiers share no two-character prefix are nevertheless both placed
into the AULA in the same slot: the second is placed by the normal-allocation
fallback, which checks occupancy and eligibility but not the prefix. -/
theorem C8_cex_normal_path_no_affinity :
    (GenSchedule.build_schedule cexC8Rooms cexC8Items).map
        (fun o => (o.tanggal, o.shift, o.ruangan, o.kelas)) =
      [((r"03-Nov-25").data, (r"07.30 - 09.30").data, (r"AULA").data, (r"AA-1").data),
       ((r"03-Nov-25").data, (r"07.30 - 09.30").data, (r"AULA").data, (r"ZZ-1").data)]
    ∧ (r"AA-1").data.take 2 ≠ (r"ZZ-1").data.take 2 := by
  exact ⟨by rfl, by decide⟩

open GenSchedule in
/-- C8 (amended).  The dedicated AULA-pairing step does enforce the
affinity rule: whenever it selects a slot, the AULA there has exactly one
registered occupant and the new record's class shares its (nonempty) first
two characters with that occupant's class. -/
theorem C8_amended_pairing_affinity (st : AState) (kelas bentukL : Str) (jumlah : Int)
    (slot : PyDate × (PyDateTime × PyDateTime))
    (h : stepA st kelas bentukL jumlah = some slot) :
    st.room_usage (dateKeyStr slot.2.1.date) (format_time_range slot.2.1 slot.2.2) AULA_NAME = 1
    ∧ ∃ o rest,
        st.room_occupants (dateKeyStr slot.2.1.date) (format_time_range slot.2.1 slot.2.2)
            AULA_NAME = o :: rest
        ∧ kelas.take 2 = o.take 2 ∧ kelas.take 2 ≠ [] := by
  have hp := List.find?_some h
  dsimp only at hp
  cases ho : st.room_occupants (dateKeyStr slot.2.1.date)
      (format_time_range slot.2.1 slot.2.2) AULA_NAME with
  | nil =>
    rw [ho] at hp
    simp at hp
  | cons o rest =>
    rw [ho] at hp
    simp only [Bool.and_eq_true, beq_iff_eq, decide_eq_true_eq] at hp
    obtain ⟨hA, hm⟩ := hp
    exact ⟨hA.1.2, o, rest, rfl, hm.2, hm.1.1⟩

open GenSchedule in
/-- Witness for the amended C8: a pairing-step success at a concrete state
with one matching-prefix occupant. -/
theorem C8_amended_pairing_affinity_witness :
    (stepA ((initState.addRoomUsage (dateKeyStr ⟨2025, 11, 3⟩)
          (format_time_range ⟨⟨2025, 11, 3⟩, 450⟩ ⟨⟨2025, 11, 3⟩, 570⟩) AULA_NAME).addOccupant
            (dateKeyStr ⟨2025, 11, 3⟩)
            (format_time_range ⟨⟨2025, 11, 3⟩, 450⟩ ⟨⟨2025, 11, 3⟩, 570⟩) AULA_NAME
            (r"AA-1").data)
        (r"AA-2").data (r"ujian tulis").data 40
      = some (⟨2025, 11, 3⟩, (⟨⟨2025, 11, 3⟩, 450⟩, ⟨⟨2025, 11, 3⟩, 570⟩)))
    ∧ (((initState.addRoomUsage (dateKeyStr ⟨2025, 11, 3⟩)
          (format_time_range ⟨⟨2025, 11, 3⟩, 450⟩ ⟨⟨2025, 11, 3⟩, 570⟩) AULA_NAME).addOccupant
            (dateKeyStr ⟨2025, 11, 3⟩)
            (format_time_range ⟨⟨2025, 11, 3⟩, 450⟩ ⟨⟨2025, 11, 3⟩, 570⟩) AULA_NAME
            (r"AA-1").data).room_usage
          (dateKeyStr ⟨2025, 11, 3⟩)
          (format_time_range ⟨⟨2025, 11, 3⟩, 450⟩ ⟨⟨2025, 11, 3⟩, 570⟩) AULA_NAME = 1
      ∧ ∃ o rest,
          ((initState.addRoomUsage (dateKeyStr ⟨2025, 11, 3⟩)
            (format_time_range ⟨⟨2025, 11, 3⟩, 450⟩ ⟨⟨2025, 11, 3⟩, 570⟩) AULA_NAME).addOccupant
              (dateKeyStr ⟨2025, 11, 3⟩)
              (format_time_range ⟨⟨2025, 11, 3⟩, 450⟩ ⟨⟨2025, 11, 3⟩, 570⟩) AULA_NAME
              (r"AA-1").data).room_occupants
            (dateKeyStr ⟨2025, 11, 3⟩)
            (format_time_range ⟨⟨2025, 11, 3⟩, 450⟩ ⟨⟨2025, 11, 3⟩, 570⟩) AULA_NAME = o :: rest
          ∧ (r"AA-2").data.take 2 = o.take 2 ∧ (r"AA-2").data.take 2 ≠ []) :=
  ⟨by decide,
   C8_amended_pairing_affinity _ (r"AA-2").data (r"ujian tulis").data 40
     (⟨2025, 11, 3⟩, (⟨⟨2025, 11, 3⟩, 450⟩, ⟨⟨2025, 11, 3⟩, 570⟩)) (by decide)⟩

set_option maxHeartbeats 4000000 in
/-- C1 (counterexample).  For `cexC1Items` the pre-filled rows audit clean
(all four finders report nothing on the input records), yet the audit of the
allocator's output reports violations in all four reports: a class overlap
and a room double-booking (two pre-filled times a century apart print
identically under `%d-%b-%y`), a lecturer overlap (the allocator never
checks lecturers), and a blackout violation (the allocator's blacklist
suffixes differ from the auditor's). -/
theorem C1_cex_round_trip_fails :
    (CheckConflicts.find_class_conflicts (itemRecords cexC1Items) = []
      ∧ CheckConflicts.find_room_conflicts (itemRecords cexC1Items) = []
      ∧ CheckConflicts.find_dosen_conflicts (itemRecords cexC1Items) = []
      ∧ CheckConflicts.find_blacklist_violations (itemRecords cexC1Items) = [])
    ∧ ((auditAll (readBack (GenSchedule.build_schedule cexC1Rooms cexC1Items))).1.length = 1
      ∧ (auditAll (readBack (GenSchedule.build_schedule cexC1Rooms cexC1Items))).2.1.length = 2
      ∧ (auditAll (readBack (GenSchedule.build_schedule cexC1Rooms cexC1Items))).2.2.1.length = 1
      ∧ (auditAll (readBack (GenSchedule.build_schedule cexC1Rooms cexC1Items))).2.2.2.length
          = 1) := by
  have hb : GenSchedule.build_schedule cexC1Rooms cexC1Items =
      [⟨(r"SENIN").data, (r"03-Nov-25").data, (r"07.30 - 09.30").data, (r"KTT 2.08").data,
        (r"K3").data, (r"M3").data, (r"D").data, (r"CC").data, [], (r"50").data⟩,
       ⟨(r"SENIN").data, (r"03-Nov-25").data, (r"07.30 - 09.30").data, (r"R9").data,
        (r"K4").data, (r"M4").data, (r"D").data, (r"EE").data, [], (r"40").data⟩,
       ⟨(r"RABU").data, (r"01-Jan-70").data, (r"07.30 - 09.30").data, (r"R9").data,
        (r"K1").data, (r"M1").data, (r"E1").data, (r"QQ").data, [], (r"10").data⟩,
       ⟨(r"KAMIS").data, (r"01-Jan-70").data, (r"07.30 - 09.30").data, (r"R9").data,
        (r"K2").data, (r"M2").data, (r"E2").data, (r"QQ").data, [], (r"10").data⟩] := by rfl
  rw [hb]
  exact ⟨⟨by rfl, by rfl, by rfl, by rfl⟩, by rfl, by rfl, by rfl, by rfl⟩

/-! ## Support lemmas for the round-trip theorem -/

theorem pyStrip_eq_rdropWhile (s : Str) :
    pyStrip s = List.rdropWhile isPySpace (s.dropWhile isPySpace) := by
  simp [pyStrip, List.rdropWhile]


theorem dropWhile_cons_head_false {α : Type} {p : α → Bool} :
    ∀ {l : List α} {c : α} {rest : List α}, l.dropWhile p = c :: rest → p c = false := by
  intro l
  induction l with
  | nil => intro c rest h; simp [List.dropWhile] at h
  | cons x xs ih =>
    intro c rest h
    rw [List.dropWhile_cons] at h
    by_cases hp : p x = true
    · rw [if_pos hp] at h
      exact ih h
    · rw [if_neg hp] at h
      obtain ⟨rfl, -⟩ := List.cons.inj h
      exact Bool.not_eq_true _ ▸ hp

theorem pyStrip_idem (s : Str) : pyStrip (pyStrip s) = pyStrip s := by
  rw [pyStrip_eq_rdropWhile s, pyStrip_eq_rdropWhile]
  have hA : (List.rdropWhile isPySpace (s.dropWhile isPySpace)).dropWhile isPySpace
      = List.rdropWhile isPySpace (s.dropWhile isPySpace) := by
    obtain ⟨t, ht⟩ := List.rdropWhile_prefix isPySpace (s.dropWhile isPySpace)
    cases hv : List.rdropWhile isPySpace (s.dropWhile isPySpace) with
    | nil => simp
    | cons c rest =>
      have hu : s.dropWhile isPySpace = c :: (rest ++ t) := by
        rw [← ht, hv]
        simp
      have hc : isPySpace c = false := dropWhile_cons_head_false hu
      simp [List.dropWhile_cons, hc]
  rw [hA, List.rdropWhile_idempotent]

open GenSchedule in
/-- Every grid slot's printed date and shift strings parse back to exactly
that slot's interval. -/
theorem grid_roundtrip : ∀ slot ∈ allSlots,
    parse_time_range (fmtDMonY slot.2.1.date) (format_time_range slot.2.1 slot.2.2)
      = some slot.2 := by decide

open GenSchedule in
/-- Grid slots carry their date, and that date is one of the allowed
weekdays. -/
theorem grid_slot_date : ∀ slot ∈ allSlots,
    slot.2.1.date = slot.1 ∧ slot.1 ∈ iter_allowed_dates := by decide

open GenSchedule in
/-- The printed `%d-%b-%y` date string is injective on the exam week. -/
theorem grid_date_inj : ∀ d1 ∈ iter_allowed_dates, ∀ d2 ∈ iter_allowed_dates,
    fmtDMonY d1 = fmtDMonY d2 → d1 = d2 := by decide

open GenSchedule in
/-- The printed date, shift, and weekday-name strings of grid slots are
unchanged by stripping. -/
theorem grid_trim : ∀ slot ∈ allSlots,
    pyStrip (fmtDMonY slot.2.1.date) = fmtDMonY slot.2.1.date
    ∧ pyStrip (format_time_range slot.2.1 slot.2.2) = format_time_range slot.2.1 slot.2.2
    ∧ pyStrip (weekday_name slot.2.1.date) = weekday_name slot.2.1.date := by decide

open GenSchedule in
/-- The AULA-pairing search only visits grid slots. -/
theorem stepA_slots_sub : ∀ slot ∈
    (aula_preferred_dates.flatMap (fun d => (aula_preferred_shifts d).map (fun se => (d, se)))),
    slot ∈ allSlots := by decide

open GenSchedule in
/-- The normal-allocation search only visits grid slots. -/
theorem stepB_slots_sub : ∀ b : Bool, ∀ slot ∈ stepBSlots b, slot ∈ allSlots := by decide

open GenSchedule in
theorem aula_name_facts :
    pyStrip AULA_NAME = AULA_NAME
    ∧ (∀ suf ∈ CheckConflicts.BLACKLIST_MON_FRI_SUFFIXES
        ++ CheckConflicts.BLACKLIST_MON_WED_SUFFIXES, pyEndsWith AULA_NAME suf = false) := by
  decide

/-- A room whose name carries none of the auditor's blacklist suffixes is
never flagged by the auditor's blacklist predicate. -/
theorem not_blacklisted_of_no_suffix {rm : Str}
    (h : ∀ suf ∈ CheckConflicts.BLACKLIST_MON_FRI_SUFFIXES
      ++ CheckConflicts.BLACKLIST_MON_WED_SUFFIXES, pyEndsWith rm suf = false)
    (d : PyDate) : CheckConflicts.is_room_blacklisted_on_date rm d = false := by
  unfold CheckConflicts.is_room_blacklisted_on_date
  split_ifs with h1 h2 h3
  · rfl
  · exfalso
    rw [List.any_eq_true] at h2
    rcases h2 with ⟨suf, hsuf, hp⟩
    rw [Bool.and_eq_true] at hp
    have := h suf (List.mem_append.2 (Or.inl hsuf))
    rw [this] at hp
    exact Bool.noConfusion hp.1
  · exfalso
    rw [List.any_eq_true] at h3
    rcases h3 with ⟨suf, hsuf, hp⟩
    rw [Bool.and_eq_true] at hp
    have := h suf (List.mem_append.2 (Or.inr hsuf))
    rw [this] at hp
    exact Bool.noConfusion hp.1
  · rfl

namespace GenSchedule

theorem registerGenerated_class_usage (st : AState) (kelas : Str) (s e : PyDateTime) (rm : Str)
    (k : Str) :
    (registerGenerated st kelas s e rm).class_usage k
      = if k = kelas then st.class_usage k ++ [(s, e)] else st.class_usage k := by
  unfold registerGenerated AState.addOccupant AState.addRoomUsage AState.addDaily
    AState.addClassUsage
  split_ifs <;> simp_all

theorem registerGenerated_class_daily (st : AState) (kelas : Str) (s e : PyDateTime) (rm : Str)
    (k dk : Str) :
    (registerGenerated st kelas s e rm).class_daily_count k dk
      = if k = kelas ∧ dk = dateKeyStr s.date then st.class_daily_count k dk + 1
        else st.class_daily_count k dk := by
  unfold registerGenerated AState.addOccupant AState.addRoomUsage AState.addDaily
    AState.addClassUsage
  split_ifs <;> simp_all

theorem registerGenerated_room_usage (st : AState) (kelas : Str) (s e : PyDateTime) (rm : Str)
    (dk sk r : Str) :
    (registerGenerated st kelas s e rm).room_usage dk sk r
      = if dk = dateKeyStr s.date ∧ sk = format_time_range s e ∧ r = rm then
          st.room_usage dk sk r + 1
        else st.room_usage dk sk r := by
  unfold registerGenerated AState.addOccupant AState.addRoomUsage AState.addDaily
    AState.addClassUsage
  split_ifs <;> simp_all

theorem countClass_append_single (outs : List OutRow) (o : OutRow) (k dk : Str) :
    countClass (outs ++ [o]) k dk
      = countClass outs k dk
        + (if o.kelas == k && ((rowInterval o).any (fun iv => dateKeyStr iv.1.date == dk))
           then 1 else 0) := by
  unfold countClass
  rw [List.filter_append, List.length_append]
  congr 1
  cases h : (o.kelas == k && ((rowInterval o).any (fun iv => dateKeyStr iv.1.date == dk))) with
  | false => simp [List.filter, h]
  | true => simp [List.filter, h]

theorem countRoom_append_single (outs : List OutRow) (o : OutRow) (dk sk rm : Str) :
    countRoom (outs ++ [o]) dk sk rm
      = countRoom outs dk sk rm
        + (if ((rowInterval o).any
              (fun iv => dateKeyStr iv.1.date == dk && format_time_range iv.1 iv.2 == sk))
            && o.ruangan == rm
           then 1 else 0) := by
  unfold countRoom
  rw [List.filter_append, List.length_append]
  congr 1
  cases h : (((rowInterval o).any
      (fun iv => dateKeyStr iv.1.date == dk && format_time_range iv.1 iv.2 == sk))
      && o.ruangan == rm) with
  | false => simp [List.filter, h]
  | true => simp [List.filter, h]

theorem is_class_conflict_false_facts {st : AState} {kelas : Str} {s e : PyDateTime}
    (h : is_class_conflict st kelas s e = false) (hk : kelas ≠ []) :
    (∀ iv ∈ st.class_usage kelas, intervalsOverlap (s, e) iv = false)
      ∧ st.class_daily_count kelas (dateKeyStr s.date) ≤ 1 := by
  unfold is_class_conflict at h
  rw [if_neg hk] at h
  split_ifs at h with h1 h2
  refine ⟨fun iv hiv => ?_, by omega⟩
  have h1f : (st.class_usage kelas).any (fun iv => intervalsOverlap (s, e) iv) = false :=
    Bool.not_eq_true _ ▸ h1
  rw [List.any_eq_false] at h1f
  have := h1f iv hiv
  exact Bool.not_eq_true _ ▸ this

theorem stepA_some_facts {st : AState} {kelas bentukL : Str} {jumlah : Int}
    {slot : PyDate × (PyDateTime × PyDateTime)}
    (h : stepA st kelas bentukL jumlah = some slot) :
    slot ∈ allSlots
      ∧ is_class_conflict st kelas slot.2.1 slot.2.2 = false
      ∧ st.room_usage (dateKeyStr slot.2.1.date)
          (format_time_range slot.2.1 slot.2.2) AULA_NAME = 1 := by
  unfold stepA at h
  have hmem := List.mem_of_find?_eq_some h
  have hp := List.find?_some h
  dsimp only at hp
  simp only [Bool.and_eq_true, Bool.not_eq_true', beq_iff_eq] at hp
  exact ⟨stepA_slots_sub slot hmem, hp.1.1.1.1.1, hp.1.1.2⟩

theorem stepBRoom_some_facts {rooms : List Str} {st : AState} {kelas bentuk : Str}
    {jumlah : Int} {slot : PyDate × (PyDateTime × PyDateTime)} {rm : Str}
    (h : stepBRoom rooms st kelas [] bentuk jumlah slot = some rm) :
    is_class_conflict st kelas slot.2.1 slot.2.2 = false
      ∧ rm ≠ [] ∧ rm ∈ rooms
      ∧ (is_aula rm = true →
          st.room_usage (dateKeyStr slot.2.1.date) (format_time_range slot.2.1 slot.2.2) rm ≤ 1)
      ∧ (is_aula rm = false →
          st.room_usage (dateKeyStr slot.2.1.date) (format_time_range slot.2.1 slot.2.2) rm
            = 0) := by
  simp only [stepBRoom] at h
  by_cases hc : is_class_conflict st kelas slot.2.1 slot.2.2 = true
  · rw [if_pos hc] at h
    exact Option.noConfusion h
  rw [if_neg hc] at h
  rw [if_neg (by simp)] at h
  have hpick :
      ∃ rm0, pick_free_room rooms st slot.1 (dateKeyStr slot.2.1.date)
          (format_time_range slot.2.1 slot.2.2) slot.2.1 bentuk true jumlah = some rm0
        ∧ rm0 = rm ∧ rm ≠ [] := by
    cases hp : pick_free_room rooms st slot.1 (dateKeyStr slot.2.1.date)
        (format_time_range slot.2.1 slot.2.2) slot.2.1 bentuk true jumlah with
    | none =>
      rw [hp] at h
      dsimp only at h
      exact Option.noConfusion h
    | some rm0 =>
      rw [hp] at h
      dsimp only at h
      by_cases hz : rm0 = []
      · rw [if_pos hz] at h
        exact Option.noConfusion h
      · rw [if_neg hz] at h
        obtain rfl := Option.some.inj h
        exact ⟨rm0, rfl, rfl, hz⟩
  obtain ⟨rm0, hp, rfl, hne⟩ := hpick
  refine ⟨Bool.not_eq_true _ ▸ (Bool.not_eq_true _ ▸ hc), hne, ?_, ?_, ?_⟩
  · rcases pick_free_room_mem hp with hm | hm
    · exact (mem_pickCandidates_aula hm).1
    · exact (mem_pickCandidates_normal hm).1
  · intro _
    rcases pick_free_room_mem hp with hm | hm
    · have := (mem_pickCandidates_aula hm).2.2.2.2.2.2.1
      omega
    · have := (mem_pickCandidates_normal hm).2.2
      omega
  · intro ha
    rcases pick_free_room_mem hp with hm | hm
    · have := (mem_pickCandidates_aula hm).2.1
      rw [ha] at this
      exact absurd this (by simp)
    · exact (mem_pickCandidates_normal hm).2.2

theorem stepItem_free_eq {rooms : List Str} {st : AState} {it : Item} (hf : FreeItem it) :
    stepItem rooms st it =
      (match stepA st it.kelas (pyLower (pyStrip it.bentuk_ujian))
          (parse_int_safe it.jumlah_mhs) with
       | some slot =>
         (registerGenerated st it.kelas slot.2.1 slot.2.2 AULA_NAME,
          mkOut (weekday_name slot.2.1.date) (fmtDMonY slot.2.1.date)
            (format_time_range slot.2.1 slot.2.2) AULA_NAME it)
       | none =>
         match (stepBSlots ((pyLower (pyStrip it.bentuk_ujian) == ujianTulisStr)
               && decide (0 < parse_int_safe it.jumlah_mhs))).findSome?
             (fun slot =>
               (stepBRoom rooms st it.kelas [] (pyStrip it.bentuk_ujian)
                   (parse_int_safe it.jumlah_mhs) slot).map (fun rm => (slot, rm))) with
         | some (slot, rm) =>
           (registerGenerated st it.kelas slot.2.1 slot.2.2 rm,
            mkOut (weekday_name slot.2.1.date) (fmtDMonY slot.2.1.date)
              (format_time_range slot.2.1 slot.2.2) rm it)
         | none => (st, mkOut [] [] [] [] it)) := by
  obtain ⟨h1, h2, h3, h4⟩ := hf
  unfold stepItem
  rw [h1, h2, h3, h4]
  rfl

/-- Shape of one main-loop iteration on a fully unscheduled item: either the
row is left blank and the state untouched, or a grid slot and a room are
chosen whose pre-assignment state passes the conflict and occupancy
checks. -/
theorem stepItem_free {rooms : List Str} {st : AState} {it : Item} (hf : FreeItem it) :
    stepItem rooms st it = (st, mkOut [] [] [] [] it)
    ∨ ∃ slot rm, slot ∈ allSlots ∧ rm ≠ []
        ∧ (rm ∈ rooms ∨ rm = AULA_NAME)
        ∧ is_class_conflict st it.kelas slot.2.1 slot.2.2 = false
        ∧ (is_aula rm = true →
            st.room_usage (dateKeyStr slot.2.1.date)
              (format_time_range slot.2.1 slot.2.2) rm ≤ 1)
        ∧ (is_aula rm = false →
            st.room_usage (dateKeyStr slot.2.1.date)
              (format_time_range slot.2.1 slot.2.2) rm = 0)
        ∧ stepItem rooms st it
            = (registerGenerated st it.kelas slot.2.1 slot.2.2 rm,
               mkOut (weekday_name slot.2.1.date) (fmtDMonY slot.2.1.date)
                 (format_time_range slot.2.1 slot.2.2) rm it) := by
  have heq := @stepItem_free_eq rooms st _ hf
  cases hA : stepA st it.kelas (pyLower (pyStrip it.bentuk_ujian))
      (parse_int_safe it.jumlah_mhs) with
  | some slot =>
    right
    obtain ⟨hmem, hcf, husage⟩ := stepA_some_facts hA
    rw [hA] at heq
    refine ⟨slot, AULA_NAME, hmem, by decide, Or.inr rfl, hcf, ?_, ?_, heq⟩
    · intro _
      omega
    · intro ha
      exact absurd ha (by decide)
  | none =>
    rw [hA] at heq
    cases hB : (stepBSlots ((pyLower (pyStrip it.bentuk_ujian) == ujianTulisStr)
          && decide (0 < parse_int_safe it.jumlah_mhs))).findSome?
        (fun slot =>
          (stepBRoom rooms st it.kelas [] (pyStrip it.bentuk_ujian)
              (parse_int_safe it.jumlah_mhs) slot).map (fun rm => (slot, rm))) with
    | none =>
      rw [hB] at heq
      exact Or.inl heq
    | some p =>
      right
      rw [hB] at heq
      obtain ⟨slot0, hslot0, hf0⟩ := List.exists_of_findSome?_eq_some hB
      rw [Option.map_eq_some'] at hf0
      obtain ⟨rm0, hroom, hpair⟩ := hf0
      subst hpair
      obtain ⟨hcf, hne, hmem, haula, hnorm⟩ := stepBRoom_some_facts hroom
      exact ⟨slot0, rm0, stepB_slots_sub _ slot0 hslot0, hne, Or.inl hmem, hcf, haula,
        hnorm, heq⟩

theorem rowInterval_assigned {slot : PyDate × (PyDateTime × PyDateTime)} (hmem : slot ∈ allSlots)
    (h rm : Str) (it : Item) :
    rowInterval (mkOut h (fmtDMonY slot.2.1.date) (format_time_range slot.2.1 slot.2.2) rm it)
      = some slot.2 :=
  grid_roundtrip slot hmem

theorem rowInterval_blank (it : Item) : rowInterval (mkOut [] [] [] [] it) = none := rfl

theorem inv_append_blank {rooms : List Str} {st : AState} {acc : List OutRow} (it : Item)
    (hInv : Inv rooms st acc) : Inv rooms st (acc ++ [mkOut [] [] [] [] it]) := by
  obtain ⟨⟨hGood, hPair, hCC, hCR⟩, hMap, hDaily, hRoom⟩ := hInv
  have hio : rowInterval (mkOut [] [] [] [] it) = none := rowInterval_blank it
  refine ⟨⟨?_, ?_, ?_, ?_⟩, ?_, ?_, ?_⟩
  · intro o ho
    rcases List.mem_append.1 ho with ho | ho
    · exact hGood o ho
    · rw [List.mem_singleton] at ho
      subst ho
      exact Or.inl ⟨rfl, rfl, rfl, rfl⟩
  · rw [List.pairwise_append]
    refine ⟨hPair, List.pairwise_singleton _ _, ?_⟩
    intro a _ b hb
    rw [List.mem_singleton] at hb
    subst hb
    intro _ _ iv1 iv2 _ h2
    rw [hio] at h2
    exact Option.noConfusion h2
  · intro k dk hk
    rw [countClass_append_single, hio]
    have : (Option.any (fun iv => dateKeyStr iv.1.date == dk)
        (none : Option (PyDateTime × PyDateTime))) = false := rfl
    rw [this, Bool.and_false, if_neg (by simp)]
    exact Nat.le_trans (Nat.le_add_right _ 0) (by rw [Nat.add_zero]; exact hCC k dk hk)
  · intro dk sk rm
    rw [countRoom_append_single, hio]
    have : (Option.any
        (fun iv => dateKeyStr iv.1.date == dk && format_time_range iv.1 iv.2 == sk)
        (none : Option (PyDateTime × PyDateTime))) = false := rfl
    rw [this, Bool.false_and, if_neg (by simp), Nat.add_zero]
    exact hCR dk sk rm
  · intro o ho iv hi hk
    rcases List.mem_append.1 ho with ho | ho
    · exact hMap o ho iv hi hk
    · rw [List.mem_singleton] at ho
      subst ho
      rw [hio] at hi
      exact Option.noConfusion hi
  · intro k dk
    rw [countClass_append_single, hio]
    have : (Option.any (fun iv => dateKeyStr iv.1.date == dk)
        (none : Option (PyDateTime × PyDateTime))) = false := rfl
    rw [this, Bool.and_false, if_neg (by simp), Nat.add_zero]
    exact hDaily k dk
  · intro dk sk rm
    rw [countRoom_append_single, hio]
    have : (Option.any
        (fun iv => dateKeyStr iv.1.date == dk && format_time_range iv.1 iv.2 == sk)
        (none : Option (PyDateTime × PyDateTime))) = false := rfl
    rw [this, Bool.false_and, if_neg (by simp), Nat.add_zero]
    exact hRoom dk sk rm

theorem inv_append_assigned {rooms : List Str} {st : AState} {acc : List OutRow} {it : Item}
    {slot : PyDate × (PyDateTime × PyDateTime)} {rm : Str}
    (hmem : slot ∈ allSlots) (hne : rm ≠ []) (hrm : rm ∈ rooms ∨ rm = AULA_NAME)
    (hcf : is_class_conflict st it.kelas slot.2.1 slot.2.2 = false)
    (haula : is_aula rm = true →
      st.room_usage (dateKeyStr slot.2.1.date) (format_time_range slot.2.1 slot.2.2) rm ≤ 1)
    (hnorm : is_aula rm = false →
      st.room_usage (dateKeyStr slot.2.1.date) (format_time_range slot.2.1 slot.2.2) rm = 0)
    (hInv : Inv rooms st acc) :
    Inv rooms (registerGenerated st it.kelas slot.2.1 slot.2.2 rm)
      (acc ++ [mkOut (weekday_name slot.2.1.date) (fmtDMonY slot.2.1.date)
        (format_time_range slot.2.1 slot.2.2) rm it]) := by
  obtain ⟨⟨hGood, hPair, hCC, hCR⟩, hMap, hDaily, hRoom⟩ := hInv
  have hio : rowInterval (mkOut (weekday_name slot.2.1.date) (fmtDMonY slot.2.1.date)
      (format_time_range slot.2.1 slot.2.2) rm it) = some slot.2 :=
    rowInterval_assigned hmem _ _ it
  refine ⟨⟨?_, ?_, ?_, ?_⟩, ?_, ?_, ?_⟩
  · intro o ho
    rcases List.mem_append.1 ho with ho | ho
    · exact hGood o ho
    · rw [List.mem_singleton] at ho
      subst ho
      exact Or.inr ⟨slot, hmem, rfl, rfl, rfl, hne, hrm, hio⟩
  · rw [List.pairwise_append]
    refine ⟨hPair, List.pairwise_singleton _ _, ?_⟩
    intro a ha b hb
    rw [List.mem_singleton] at hb
    subst hb
    intro hk hkel iv1 iv2 hi1 hi2
    rw [hio] at hi2
    obtain rfl := Option.some.inj hi2
    have hkel2 : a.kelas = it.kelas := hkel
    have hkne : it.kelas ≠ [] := hkel2 ▸ hk
    have hm1 : iv1 ∈ st.class_usage it.kelas := by
      have := hMap a ha iv1 hi1 hk
      rw [hkel2] at this
      exact this
    obtain ⟨hNoOv, -⟩ := is_class_conflict_false_facts hcf hkne
    rw [CheckConflicts.intervalsOverlap_comm]
    exact hNoOv iv1 hm1
  · intro k dk hk
    rw [countClass_append_single, hio]
    simp only [mkOut, Option.any_some]
    by_cases hb : (it.kelas == k && (dateKeyStr slot.2.1.date == dk)) = true
    · rw [if_pos hb]
      rw [Bool.and_eq_true, beq_iff_eq, beq_iff_eq] at hb
      obtain ⟨hb1, hb2⟩ := hb
      subst hb1
      subst hb2
      obtain ⟨-, hDle⟩ := is_class_conflict_false_facts hcf hk
      have h1 := hDaily it.kelas (dateKeyStr slot.2.1.date)
      omega
    · rw [if_neg hb, Nat.add_zero]
      exact hCC k dk hk
  · intro dk sk rm'
    rw [countRoom_append_single, hio]
    simp only [mkOut, Option.any_some]
    constructor
    · intro hia
      by_cases hb : ((dateKeyStr slot.2.1.date == dk
          && format_time_range slot.2.1 slot.2.2 == sk) && rm == rm') = true
      · rw [if_pos hb]
        simp only [Bool.and_eq_true, beq_iff_eq] at hb
        obtain ⟨⟨hb1, hb2⟩, hb3⟩ := hb
        subst hb1
        subst hb2
        subst hb3
        have h0 := hnorm hia
        have h1 := hRoom (dateKeyStr slot.2.1.date) (format_time_range slot.2.1 slot.2.2) rm
        omega
      · rw [if_neg hb, Nat.add_zero]
        exact (hCR dk sk rm').1 hia
    · intro hia
      by_cases hb : ((dateKeyStr slot.2.1.date == dk
          && format_time_range slot.2.1 slot.2.2 == sk) && rm == rm') = true
      · rw [if_pos hb]
        simp only [Bool.and_eq_true, beq_iff_eq] at hb
        obtain ⟨⟨hb1, hb2⟩, hb3⟩ := hb
        subst hb1
        subst hb2
        subst hb3
        have h0 := haula hia
        have h1 := hRoom (dateKeyStr slot.2.1.date) (format_time_range slot.2.1 slot.2.2) rm
        omega
      · rw [if_neg hb, Nat.add_zero]
        exact (hCR dk sk rm').2 hia
  · intro o ho iv hi hk
    rw [registerGenerated_class_usage]
    rcases List.mem_append.1 ho with ho | ho
    · have := hMap o ho iv hi hk
      split_ifs with he
      · exact List.mem_append_left _ this
      · exact this
    · rw [List.mem_singleton] at ho
      subst ho
      rw [hio] at hi
      obtain rfl := Option.some.inj hi
      simp only [mkOut]
      rw [if_pos trivial]
      exact List.mem_append_right _ (List.mem_singleton.2 rfl)
  · intro k dk
    rw [countClass_append_single, hio, registerGenerated_class_daily]
    simp only [mkOut, Option.any_some]
    by_cases hb : (it.kelas == k && (dateKeyStr slot.2.1.date == dk)) = true
    · rw [if_pos hb]
      simp only [Bool.and_eq_true, beq_iff_eq] at hb
      obtain ⟨hb1, hb2⟩ := hb
      rw [if_pos ⟨hb1.symm, hb2.symm⟩]
      have := hDaily k dk
      omega
    · rw [if_neg hb]
      have := hDaily k dk
      split_ifs <;> omega
  · intro dk sk rm'
    rw [countRoom_append_single, hio, registerGenerated_room_usage]
    simp only [mkOut, Option.any_some]
    by_cases hb : ((dateKeyStr slot.2.1.date == dk
        && format_time_range slot.2.1 slot.2.2 == sk) && rm == rm') = true
    · rw [if_pos hb]
      simp only [Bool.and_eq_true, beq_iff_eq] at hb
      obtain ⟨⟨hb1, hb2⟩, hb3⟩ := hb
      rw [if_pos ⟨hb1.symm, hb2.symm, hb3.symm⟩]
      have := hRoom dk sk rm'
      omega
    · rw [if_neg hb]
      have := hRoom dk sk rm'
      split_ifs <;> omega

theorem stepItem_inv {rooms : List Str} {st : AState} {it : Item} {acc : List OutRow}
    (hf : FreeItem it) (hInv : Inv rooms st acc) :
    Inv rooms (stepItem rooms st it).1 (acc ++ [(stepItem rooms st it).2]) := by
  rcases @stepItem_free rooms st _ hf with heq
    | ⟨slot, rm, hmem, hne, hrm, hcf, haula, hnorm, heq⟩
  · rw [heq]
    exact inv_append_blank it hInv
  · rw [heq]
    rcases hrm with hrm | hrm
    · exact inv_append_assigned hmem hne (Or.inl hrm) hcf haula hnorm hInv
    · exact inv_append_assigned hmem hne (Or.inr hrm) hcf haula hnorm hInv

theorem mainFold_inv {rooms : List Str} :
    ∀ (its : List Item) (st : AState) (acc : List OutRow),
      (∀ it ∈ its, FreeItem it) → Inv rooms st acc →
        InvOut rooms (acc ++ mainFold rooms st its)
  | [], _, acc, _, hInv => by
    rw [mainFold, List.append_nil]
    exact hInv.1
  | it :: rest, st, acc, hfree, hInv => by
    rw [mainFold]
    have h1 : Inv rooms (stepItem rooms st it).1 (acc ++ [(stepItem rooms st it).2]) :=
      stepItem_inv (hfree it (List.mem_cons_self it rest)) hInv
    have h2 := mainFold_inv rest (stepItem rooms st it).1 (acc ++ [(stepItem rooms st it).2])
      (fun x hx => hfree x (List.mem_cons_of_mem _ hx)) h1
    rw [List.append_assoc] at h2
    exact h2

theorem stInsert_perm (x : Item) (l : List Item) : (stInsert x l).Perm (x :: l) := by
  induction l with
  | nil => exact List.Perm.refl _
  | cons y ys ih =>
    rw [stInsert]
    split_ifs
    · exact List.Perm.refl _
    · exact (List.Perm.cons y ih).trans (List.Perm.swap x y ys)

theorem stableSort_perm (l : List Item) : (stableSort l).Perm l := by
  induction l with
  | nil => exact List.Perm.refl _
  | cons x xs ih =>
    rw [stableSort]
    exact (stInsert_perm x (stableSort xs)).trans (List.Perm.cons x ih)

theorem prePass_free {items : List Item} (hfree : ∀ it ∈ items, FreeItem it) :
    prePass items = initState := by
  unfold prePass
  induction items with
  | nil => rfl
  | cons it rest ih =>
    rw [List.foldl_cons]
    have h2 := (hfree it (List.mem_cons_self it rest)).2.1
    have hstep : prePassOne initState it = initState := by
      unfold prePassOne
      rw [if_neg (by rw [h2]; simp)]
    rw [hstep]
    exact ih (fun x hx => hfree x (List.mem_cons_of_mem _ hx))

theorem inv_init {rooms : List Str} : Inv rooms initState [] := by
  refine ⟨⟨?_, ?_, ?_, ?_⟩, ?_, ?_, ?_⟩
  · intro o ho
    exact absurd ho (List.not_mem_nil o)
  · exact List.Pairwise.nil
  · intro k dk _
    show List.length (List.filter _ []) ≤ 2
    rw [List.filter_nil]
    exact Nat.le_of_lt Nat.zero_lt_two
  · intro dk sk rm
    constructor
    · intro _
      show List.length (List.filter _ []) ≤ 1
      rw [List.filter_nil]
      exact Nat.zero_le 1
    · intro _
      show List.length (List.filter _ []) ≤ 2
      rw [List.filter_nil]
      exact Nat.zero_le 2
  · intro o ho
    exact absurd ho (List.not_mem_nil o)
  · intro k dk
    exact Nat.le_refl 0
  · intro dk sk rm
    exact Nat.le_refl 0

/-- Every output list of `build_schedule` on fully unscheduled input
satisfies the allocation invariant. -/
theorem build_schedule_invOut {rooms : List Str} {items : List Item}
    (hfree : ∀ it ∈ items, FreeItem it) :
    InvOut rooms (build_schedule rooms items) := by
  unfold build_schedule
  rw [prePass_free hfree]
  have hfree2 : ∀ it ∈ stableSort items, FreeItem it := fun it hit =>
    hfree it ((stableSort_perm items).mem_iff.1 hit)
  have := @mainFold_inv rooms (stableSort items) initState [] hfree2 inv_init
  rw [List.nil_append] at this
  exact this

theorem stepItem_snd_fields {rooms : List Str} {st : AState} {it : Item} (hf : FreeItem it) :
    (stepItem rooms st it).2.kelas = it.kelas
      ∧ (stepItem rooms st it).2.nama_dosen = it.nama_dosen := by
  rcases @stepItem_free rooms st _ hf with heq
    | ⟨slot, rm, _, _, _, _, _, _, heq⟩ <;> rw [heq] <;> exact ⟨rfl, rfl⟩

theorem mainFold_fields {rooms : List Str} :
    ∀ (its : List Item) (st : AState), (∀ it ∈ its, FreeItem it) →
      (mainFold rooms st its).map (fun o => (o.kelas, o.nama_dosen))
        = its.map (fun it => (it.kelas, it.nama_dosen))
  | [], _, _ => rfl
  | it :: rest, st, hfree => by
    rw [mainFold, List.map_cons, List.map_cons]
    have hh := @stepItem_snd_fields rooms st _
      (hfree it (List.mem_cons_self it rest))
    rw [hh.1, hh.2]
    rw [mainFold_fields rest (stepItem rooms st it).1
      (fun x hx => hfree x (List.mem_cons_of_mem _ hx))]

theorem build_schedule_fields {rooms : List Str} {items : List Item}
    (hfree : ∀ it ∈ items, FreeItem it) :
    (build_schedule rooms items).map (fun o => (o.kelas, o.nama_dosen))
      = (stableSort items).map (fun it => (it.kelas, it.nama_dosen)) := by
  unfold build_schedule
  exact mainFold_fields (stableSort items) (prePass items)
    (fun it hit => hfree it ((stableSort_perm items).mem_iff.1 hit))

end GenSchedule

theorem length_filter_le_one {α : Type} {l : List α} {p : α → Bool}
    (hp : l.Pairwise (fun a b => ¬(p a = true ∧ p b = true))) : (l.filter p).length ≤ 1 := by
  induction l with
  | nil => exact Nat.zero_le 1
  | cons x xs ih =>
    rw [List.pairwise_cons] at hp
    rw [List.filter_cons]
    split_ifs with hx
    · have hnil : xs.filter p = [] := by
        rw [List.filter_eq_nil_iff]
        intro a ha hpa
        exact hp.1 a ha ⟨hx, hpa⟩
      rw [hnil]
      exact Nat.le_refl 1
    · exact ih hp.2

theorem mem_readBack {outs : List GenSchedule.OutRow} {r : CheckConflicts.Rec}
    (h : r ∈ readBack outs) : ∃ o ∈ outs, r = outToRec o := by
  unfold readBack at h
  rcases List.mem_map.1 h with ⟨o, ho, rfl⟩
  exact ⟨o, (List.mem_filter.1 ho).1, rfl⟩

theorem isAulaName_is_aula (rm : Str) :
    CheckConflicts.isAulaName rm = GenSchedule.is_aula rm := rfl

open GenSchedule in
/-- What the auditor sees of a row produced for a fully unscheduled input:
either all schedule fields empty with no interval, or the printed fields of
a grid slot, unchanged by stripping, with the interval parsing back to the
slot. -/
theorem goodRec_cases {rooms : List Str} {o : GenSchedule.OutRow}
    (hg : GoodRow rooms o) (hrooms : ∀ rm ∈ rooms, pyStrip rm = rm) :
    ((outToRec o).tanggal = [] ∧ (outToRec o).shift = [] ∧ (outToRec o).ruangan = []
      ∧ (outToRec o).interval = none)
    ∨ (∃ slot ∈ allSlots,
        (outToRec o).tanggal = fmtDMonY slot.2.1.date
        ∧ (outToRec o).shift = format_time_range slot.2.1 slot.2.2
        ∧ (outToRec o).ruangan = o.ruangan ∧ o.ruangan ≠ []
        ∧ (o.ruangan ∈ rooms ∨ o.ruangan = AULA_NAME)
        ∧ (outToRec o).interval = some slot.2
        ∧ rowInterval o = some slot.2) := by
  rcases hg with ⟨h1, h2, h3, h4⟩ | ⟨slot, hmem, ht, hs, hsh, hne, hr, hio⟩
  · left
    refine ⟨?_, ?_, ?_, ?_⟩
    · show pyStrip o.tanggal = []
      rw [h2]
      rfl
    · show pyStrip o.shift = []
      rw [h3]
      rfl
    · show pyStrip o.ruangan = []
      rw [h4]
      rfl
    · show parse_time_range (pyStrip o.tanggal) (pyStrip o.shift) = none
      rw [h2, h3]
      rfl
  · right
    obtain ⟨gt1, gt2, -⟩ := grid_trim slot hmem
    have hru : pyStrip o.ruangan = o.ruangan := by
      rcases hr with hr | hr
      · exact hrooms o.ruangan hr
      · rw [hr]
        exact aula_name_facts.1
    refine ⟨slot, hmem, ?_, ?_, hru, hne, hr, ?_, hio⟩
    · show pyStrip o.tanggal = fmtDMonY slot.2.1.date
      rw [hs, gt1]
    · show pyStrip o.shift = format_time_range slot.2.1 slot.2.2
      rw [hsh, gt2]
    · show parse_time_range (pyStrip o.tanggal) (pyStrip o.shift) = some slot.2
      rw [hs, hsh, gt1, gt2]
      exact grid_roundtrip slot hmem

open GenSchedule in
theorem build_kelas_trim {rooms : List Str} {items : List Item}
    (hfree : ∀ it ∈ items, FreeItem it)
    (hkelas : ∀ it ∈ items, pyStrip it.kelas = it.kelas) :
    ∀ o ∈ build_schedule rooms items, pyStrip o.kelas = o.kelas := by
  intro o ho
  have hmem : (o.kelas, o.nama_dosen)
      ∈ (build_schedule rooms items).map (fun o => (o.kelas, o.nama_dosen)) :=
    List.mem_map_of_mem _ ho
  rw [build_schedule_fields hfree] at hmem
  rcases List.mem_map.1 hmem with ⟨it, hit, heq⟩
  have hit2 : it ∈ items := (stableSort_perm items).mem_iff.1 hit
  have hk : it.kelas = o.kelas := congrArg Prod.fst heq
  rw [← hk]
  exact hkelas it hit2

open GenSchedule in
theorem build_dosen_pairwise {rooms : List Str} {items : List Item}
    (hfree : ∀ it ∈ items, FreeItem it)
    (hdosen : items.Pairwise (fun a b =>
      pyStrip a.nama_dosen = pyStrip b.nama_dosen → pyStrip a.nama_dosen = [])) :
    (build_schedule rooms items).Pairwise (fun o1 o2 =>
      pyStrip o1.nama_dosen = pyStrip o2.nama_dosen → pyStrip o1.nama_dosen = []) := by
  have h1 : (stableSort items).Pairwise (fun a b =>
      pyStrip a.nama_dosen = pyStrip b.nama_dosen → pyStrip a.nama_dosen = []) :=
    ((stableSort_perm items).pairwise_iff
      (fun hab hba => by rw [hba]; exact hab hba.symm)).2 hdosen
  have h2 : ((stableSort items).map (fun it => (it.kelas, it.nama_dosen))).Pairwise
      (fun p q => pyStrip p.2 = pyStrip q.2 → pyStrip p.2 = []) :=
    (List.pairwise_map).2 h1
  rw [← build_schedule_fields hfree] at h2
  exact (List.pairwise_map).1 h2

open GenSchedule CheckConflicts in
theorem ds_pairwise_class {rooms : List Str} {items : List Item}
    (hfree : ∀ it ∈ items, FreeItem it)
    (hkelas : ∀ it ∈ items, pyStrip it.kelas = it.kelas)
    (hrooms : ∀ rm ∈ rooms, pyStrip rm = rm) :
    (deduplicate_records (readBack (build_schedule rooms items))).Pairwise
      (fun r1 r2 => r1.kelas ≠ [] → r1.kelas = r2.kelas →
        ∀ iv1 iv2, r1.interval = some iv1 → r2.interval = some iv2 →
          intervalsOverlap iv1 iv2 = false) := by
  obtain ⟨hgood, hpair, -, -⟩ := @build_schedule_invOut rooms _ hfree
  have htrim := @build_kelas_trim rooms _ hfree hkelas
  have hP1 := hpair.filter rowNonBlank
  have hP2 : ((build_schedule rooms items).filter rowNonBlank).Pairwise
      (fun o1 o2 => (outToRec o1).kelas ≠ [] → (outToRec o1).kelas = (outToRec o2).kelas →
        ∀ iv1 iv2, (outToRec o1).interval = some iv1 → (outToRec o2).interval = some iv2 →
          intervalsOverlap iv1 iv2 = false) := by
    refine hP1.imp_of_mem ?_
    intro o1 o2 h1 h2 hro
    have ho1 : o1 ∈ build_schedule rooms items := (List.mem_filter.1 h1).1
    have ho2 : o2 ∈ build_schedule rooms items := (List.mem_filter.1 h2).1
    have ht1 : (outToRec o1).kelas = o1.kelas := htrim o1 ho1
    have ht2 : (outToRec o2).kelas = o2.kelas := htrim o2 ho2
    intro hk hkel iv1 iv2 hi1 hi2
    rcases goodRec_cases (hgood o1 ho1) hrooms with ⟨-, -, -, hn⟩ | ⟨s1, -, -, -, -, -, -, hiv1, hrow1⟩
    · rw [hn] at hi1
      exact Option.noConfusion hi1
    rcases goodRec_cases (hgood o2 ho2) hrooms with ⟨-, -, -, hn⟩ | ⟨s2, -, -, -, -, -, -, hiv2, hrow2⟩
    · rw [hn] at hi2
      exact Option.noConfusion hi2
    rw [hiv1] at hi1
    rw [hiv2] at hi2
    obtain rfl := Option.some.inj hi1
    obtain rfl := Option.some.inj hi2
    rw [ht1] at hk hkel
    rw [ht2] at hkel
    exact hro hk hkel _ _ hrow1 hrow2
  have hP3 : (((build_schedule rooms items).filter rowNonBlank).map outToRec).Pairwise
      (fun r1 r2 => r1.kelas ≠ [] → r1.kelas = r2.kelas →
        ∀ iv1 iv2, r1.interval = some iv1 → r2.interval = some iv2 →
          intervalsOverlap iv1 iv2 = false) := (List.pairwise_map).2 hP2
  exact List.Pairwise.sublist (deduplicate_sublist _) hP3

open GenSchedule CheckConflicts in
theorem ds_pairwise_dosen {rooms : List Str} {items : List Item}
    (hfree : ∀ it ∈ items, FreeItem it)
    (hdosen : items.Pairwise (fun a b =>
      pyStrip a.nama_dosen = pyStrip b.nama_dosen → pyStrip a.nama_dosen = [])) :
    (deduplicate_records (readBack (build_schedule rooms items))).Pairwise
      (fun r1 r2 => pyStrip r1.dosen = pyStrip r2.dosen → pyStrip r1.dosen = []) := by
  have h0 := @build_dosen_pairwise rooms _ hfree hdosen
  have hP1 := h0.filter rowNonBlank
  have hP2 : ((build_schedule rooms items).filter rowNonBlank).Pairwise
      (fun o1 o2 => pyStrip (outToRec o1).dosen = pyStrip (outToRec o2).dosen →
        pyStrip (outToRec o1).dosen = []) := by
    refine hP1.imp ?_
    intro o1 o2 hro heq
    have e1 : pyStrip (outToRec o1).dosen = pyStrip o1.nama_dosen := pyStrip_idem _
    have e2 : pyStrip (outToRec o2).dosen = pyStrip o2.nama_dosen := pyStrip_idem _
    rw [e1, e2] at heq
    rw [e1]
    exact hro heq
  have hP3 : (((build_schedule rooms items).filter rowNonBlank).map outToRec).Pairwise
      (fun r1 r2 => pyStrip r1.dosen = pyStrip r2.dosen → pyStrip r1.dosen = []) :=
    (List.pairwise_map).2 hP2
  exact List.Pairwise.sublist (deduplicate_sublist _) hP3

open GenSchedule CheckConflicts in
theorem ds_blacklist_empty {rooms : List Str} {items : List Item}
    (hfree : ∀ it ∈ items, FreeItem it)
    (hrooms : ∀ rm ∈ rooms, pyStrip rm = rm)
    (hsuffix : ∀ rm ∈ rooms, ∀ suf ∈ CheckConflicts.BLACKLIST_MON_FRI_SUFFIXES
        ++ CheckConflicts.BLACKLIST_MON_WED_SUFFIXES,
      pyEndsWith rm suf = false) :
    find_blacklist_violations (deduplicate_records (readBack (build_schedule rooms items)))
      = [] := by
  unfold find_blacklist_violations
  rw [List.filterMap_eq_nil_iff]
  intro r hr
  have hr2 : r ∈ readBack (build_schedule rooms items) :=
    (deduplicate_sublist _).subset hr
  obtain ⟨o, ho, rfl⟩ := mem_readBack hr2
  obtain ⟨hgood, -, -, -⟩ := build_schedule_invOut hfree
  rcases goodRec_cases (hgood o ho) hrooms with ⟨-, -, -, hn⟩
    | ⟨slot, hmem, -, -, hru, hne, hrm, hiv, -⟩
  · dsimp only
    rw [hn]
  · dsimp only
    rw [hiv]
    dsimp only
    have hru2 : pyStrip (outToRec o).ruangan = o.ruangan := by
      show pyStrip (pyStrip o.ruangan) = o.ruangan
      rw [pyStrip_idem]
      exact hru
    rw [hru2, if_neg hne]
    have hsuf : ∀ suf ∈ CheckConflicts.BLACKLIST_MON_FRI_SUFFIXES
        ++ CheckConflicts.BLACKLIST_MON_WED_SUFFIXES,
        pyEndsWith o.ruangan suf = false := by
      rcases hrm with h | h
      · exact hsuffix o.ruangan h
      · rw [h]
        exact aula_name_facts.2
    rw [not_blacklisted_of_no_suffix hsuf]
    rfl

open GenSchedule CheckConflicts in
theorem ds_dosen_empty {rooms : List Str} {items : List Item}
    (hfree : ∀ it ∈ items, FreeItem it)
    (hdosen : items.Pairwise (fun a b =>
      pyStrip a.nama_dosen = pyStrip b.nama_dosen → pyStrip a.nama_dosen = [])) :
    find_dosen_conflicts (deduplicate_records (readBack (build_schedule rooms items))) = [] := by
  unfold find_dosen_conflicts
  apply flatMap_eq_nil_all
  intro dkey hk
  have hpair := @ds_pairwise_dosen rooms _ hfree hdosen
  have hfil : ((deduplicate_records (readBack (build_schedule rooms items))).filter
      (fun r => decide (dosenKey r = some dkey))).length ≤ 1 := by
    apply length_filter_le_one
    refine hpair.imp_of_mem ?_
    intro r1 r2 h1 h2 hrel hp
    obtain ⟨hp1, hp2⟩ := hp
    rw [decide_eq_true_eq] at hp1 hp2
    obtain ⟨hne1, -, heq1⟩ := dosenKey_eq_some.1 hp1
    obtain ⟨hne2, -, heq2⟩ := dosenKey_eq_some.1 hp2
    apply hne1
    apply hrel
    rw [← heq1, ← heq2]
  have hle : (groupOf dosenKey dkey
      (deduplicate_records (readBack (build_schedule rooms items)))).length ≤ 1 := hfil
  rw [overlapPairs_eq_nil_of_short hle]
  rfl

open GenSchedule CheckConflicts in
theorem ds_class_empty {rooms : List Str} {items : List Item}
    (hfree : ∀ it ∈ items, FreeItem it)
    (hkelas : ∀ it ∈ items, pyStrip it.kelas = it.kelas)
    (hrooms : ∀ rm ∈ rooms, pyStrip rm = rm) :
    find_class_conflicts (deduplicate_records (readBack (build_schedule rooms items))) = [] := by
  unfold find_class_conflicts
  apply flatMap_eq_nil_all
  intro key hk
  rw [mem_keysInOrder] at hk
  obtain ⟨r0, hr0, hkey0⟩ := hk
  obtain ⟨hk0ne, ht0ne, hint0, hkey0eq⟩ := classKey_eq_some.1 hkey0
  have hr0rb : r0 ∈ readBack (build_schedule rooms items) := (deduplicate_sublist _).subset hr0
  obtain ⟨o0, ho0, rfl⟩ := mem_readBack hr0rb
  obtain ⟨hgood, -, hCC, -⟩ := @build_schedule_invOut rooms _ hfree
  have htrim := @build_kelas_trim rooms _ hfree hkelas
  rcases goodRec_cases (hgood o0 ho0) hrooms with ⟨-, -, -, hn⟩
    | ⟨slot0, hmem0, ht0, -, -, -, -, -, -⟩
  · rw [hn] at hint0
    exact absurd hint0 (by simp)
  have hkey1 : key.1 = (outToRec o0).kelas := by rw [hkey0eq]
  have hkey2 : key.2 = (outToRec o0).tanggal := by rw [hkey0eq]
  have hk1ne : key.1 ≠ [] := by rw [hkey1]; exact hk0ne
  have hk1raw : key.1 = o0.kelas := by rw [hkey1]; exact htrim o0 ho0
  -- pointwise: a row matching the group key is counted by countClass at this day key
  have hpoint : ∀ o ∈ build_schedule rooms items,
      decide (classKey (outToRec o) = some key) = true →
        (o.kelas == key.1
          && Option.any (fun iv => dateKeyStr iv.1.date == dateKeyStr slot0.2.1.date)
              (rowInterval o)) = true := by
    intro o ho hp
    rw [decide_eq_true_eq] at hp
    obtain ⟨hkne, htne, hint, hkeq⟩ := classKey_eq_some.1 hp
    rcases goodRec_cases (hgood o ho) hrooms with ⟨-, -, -, hn⟩
      | ⟨slot1, hmem1, ht1, -, -, -, -, -, hrow1⟩
    · rw [hn] at hint
      exact absurd hint (by simp)
    have hkel : o.kelas = key.1 := by
      rw [hkeq]
      exact (htrim o ho).symm
    have htan : fmtDMonY slot1.2.1.date = fmtDMonY slot0.2.1.date := by
      have e1 : key.2 = (outToRec o).tanggal := by rw [hkeq]
      rw [← ht1, ← e1, hkey2, ht0]
    obtain ⟨hd1, hd1m⟩ := grid_slot_date slot1 hmem1
    obtain ⟨hd0, hd0m⟩ := grid_slot_date slot0 hmem0
    have hdate : slot1.2.1.date = slot0.2.1.date := by
      rw [hd1, hd0]
      apply grid_date_inj slot1.1 hd1m slot0.1 hd0m
      rw [← hd1, ← hd0]
      exact htan
    rw [hrow1, hkel]
    simp only [Option.any_some, Bool.and_eq_true, beq_iff_eq]
    exact ⟨trivial, by rw [hdate]⟩
  -- group length over the deduplicated records is at most 2
  have hlen : (groupOf classKey key
      (deduplicate_records (readBack (build_schedule rooms items)))).length ≤ 2 := by
    have hs1 : (groupOf classKey key
        (deduplicate_records (readBack (build_schedule rooms items)))).Sublist
        (groupOf classKey key (readBack (build_schedule rooms items))) :=
      (deduplicate_sublist _).filter _
    refine Nat.le_trans hs1.length_le ?_
    have he1 : (groupOf classKey key (readBack (build_schedule rooms items))).length
        = ((build_schedule rooms items).filter rowNonBlank).countP
            (fun o => decide (classKey (outToRec o) = some key)) := by
      show (List.filter _ (((build_schedule rooms items).filter rowNonBlank).map outToRec)).length
        = _
      rw [← List.countP_eq_length_filter, List.countP_map]
      rfl
    rw [he1]
    refine Nat.le_trans (((List.filter_sublist _).countP_le _)) ?_
    refine Nat.le_trans (List.countP_mono_left hpoint) ?_
    have he2 : (build_schedule rooms items).countP
        (fun o => o.kelas == key.1
          && Option.any (fun iv => dateKeyStr iv.1.date == dateKeyStr slot0.2.1.date)
              (rowInterval o))
        = countClass (build_schedule rooms items) key.1 (dateKeyStr slot0.2.1.date) := by
    -- countClass is the length of the corresponding filter
      rw [countClass, ← List.countP_eq_length_filter]
    rw [he2]
    exact hCC key.1 (dateKeyStr slot0.2.1.date) hk1ne
  -- overlap pairs within the group are empty
  have hOv : overlapPairs (groupOf classKey key
      (deduplicate_records (readBack (build_schedule rooms items)))) = [] := by
    apply overlapPairs_eq_nil
    have hpair := @ds_pairwise_class rooms _ hfree hkelas hrooms
    have hpg := hpair.filter (fun r => decide (classKey r = some key))
    refine hpg.imp_of_mem ?_
    intro r1 r2 h1 h2 hrel
    have hp1 := of_decide_eq_true ((List.mem_filter.1 h1).2)
    have hp2 := of_decide_eq_true ((List.mem_filter.1 h2).2)
    obtain ⟨hkne1, -, hint1, hkeq1⟩ := classKey_eq_some.1 hp1
    obtain ⟨hkne2, -, hint2, hkeq2⟩ := classKey_eq_some.1 hp2
    rw [Option.isSome_iff_exists] at hint1 hint2
    obtain ⟨iv1, hiv1⟩ := hint1
    obtain ⟨iv2, hiv2⟩ := hint2
    have hkel : r1.kelas = r2.kelas := by
      have e1 : key.1 = r1.kelas := by rw [hkeq1]
      have e2 : key.1 = r2.kelas := by rw [hkeq2]
      rw [← e1, ← e2]
    unfold overlapB
    rw [hiv1, hiv2]
    exact hrel hkne1 hkel iv1 iv2 hiv1 hiv2
  unfold classGroupEntries
  rw [hOv, if_neg (by omega), List.map_nil, List.nil_append]

open GenSchedule CheckConflicts in
theorem ds_room_empty {rooms : List Str} {items : List Item}
    (hfree : ∀ it ∈ items, FreeItem it)
    (hrooms : ∀ rm ∈ rooms, pyStrip rm = rm) :
    find_room_conflicts (deduplicate_records (readBack (build_schedule rooms items))) = [] := by
  unfold find_room_conflicts
  apply flatMap_eq_nil_all
  intro key hk
  rw [mem_keysInOrder] at hk
  obtain ⟨r0, hr0, hkey0⟩ := hk
  obtain ⟨ht0ne, hs0ne, hr0ne, hkey0eq⟩ := roomKey_eq_some.1 hkey0
  have hr0rb : r0 ∈ readBack (build_schedule rooms items) := (deduplicate_sublist _).subset hr0
  obtain ⟨o0, ho0, rfl⟩ := mem_readBack hr0rb
  obtain ⟨hgood, -, -, hCR⟩ := @build_schedule_invOut rooms _ hfree
  rcases goodRec_cases (hgood o0 ho0) hrooms with ⟨htb, -, -, -⟩
    | ⟨slot0, hmem0, ht0, hsh0, hru0, -, -, -, -⟩
  · exact absurd htb ht0ne
  have hkey2 : key.2.1 = (outToRec o0).shift := by rw [hkey0eq]
  have hkey3 : key.2.2 = (outToRec o0).ruangan := by rw [hkey0eq]
  -- pointwise: a row matching the slot key is counted by countRoom
  have hpoint : ∀ o ∈ build_schedule rooms items,
      decide (roomKey (outToRec o) = some key) = true →
        (Option.any (fun iv => dateKeyStr iv.1.date == dateKeyStr slot0.2.1.date
            && format_time_range iv.1 iv.2 == key.2.1) (rowInterval o)
          && o.ruangan == key.2.2) = true := by
    intro o ho hp
    rw [decide_eq_true_eq] at hp
    obtain ⟨htne, hsne, hrne, hkeq⟩ := roomKey_eq_some.1 hp
    rcases goodRec_cases (hgood o ho) hrooms with ⟨htb1, -, -, -⟩
      | ⟨slot1, hmem1, ht1, hsh1, hru1, -, -, -, hrow1⟩
    · exact absurd htb1 htne
    have htan : fmtDMonY slot1.2.1.date = fmtDMonY slot0.2.1.date := by
      have e1 : key.1 = (outToRec o).tanggal := by rw [hkeq]
      have e0 : key.1 = (outToRec o0).tanggal := by rw [hkey0eq]
      rw [← ht1, ← e1, e0, ht0]
    obtain ⟨hd1, hd1m⟩ := grid_slot_date slot1 hmem1
    obtain ⟨hd0, hd0m⟩ := grid_slot_date slot0 hmem0
    have hdate : slot1.2.1.date = slot0.2.1.date := by
      rw [hd1, hd0]
      apply grid_date_inj slot1.1 hd1m slot0.1 hd0m
      rw [← hd1, ← hd0]
      exact htan
    have hshift : format_time_range slot1.2.1 slot1.2.2 = key.2.1 := by
      have e1 : key.2.1 = (outToRec o).shift := by rw [hkeq]
      rw [e1, hsh1]
    have hroom : o.ruangan = key.2.2 := by
      have e1 : key.2.2 = (outToRec o).ruangan := by rw [hkeq]
      rw [e1, hru1]
    rw [hrow1]
    simp only [Option.any_some, Bool.and_eq_true, beq_iff_eq]
    exact ⟨⟨by rw [hdate], hshift⟩, hroom⟩
  -- group length bounded by the room occupancy count
  have hlen : (groupOf roomKey key
      (deduplicate_records (readBack (build_schedule rooms items)))).length
      ≤ countRoom (build_schedule rooms items) (dateKeyStr slot0.2.1.date) key.2.1 key.2.2 := by
    have hs1 : (groupOf roomKey key
        (deduplicate_records (readBack (build_schedule rooms items)))).Sublist
        (groupOf roomKey key (readBack (build_schedule rooms items))) :=
      (deduplicate_sublist _).filter _
    refine Nat.le_trans hs1.length_le ?_
    have he1 : (groupOf roomKey key (readBack (build_schedule rooms items))).length
        = ((build_schedule rooms items).filter rowNonBlank).countP
            (fun o => decide (roomKey (outToRec o) = some key)) := by
      show (List.filter _ (((build_schedule rooms items).filter rowNonBlank).map outToRec)).length
        = _
      rw [← List.countP_eq_length_filter, List.countP_map]
      rfl
    rw [he1]
    refine Nat.le_trans (((List.filter_sublist _).countP_le _)) ?_
    refine Nat.le_trans (List.countP_mono_left hpoint) ?_
    have he2 : (build_schedule rooms items).countP
        (fun o => Option.any (fun iv => dateKeyStr iv.1.date == dateKeyStr slot0.2.1.date
            && format_time_range iv.1 iv.2 == key.2.1) (rowInterval o)
          && o.ruangan == key.2.2)
        = countRoom (build_schedule rooms items) (dateKeyStr slot0.2.1.date) key.2.1 key.2.2 := by
      rw [countRoom, ← List.countP_eq_length_filter]
    rw [he2]
  unfold roomGroupEntries
  by_cases haula : isAulaName key.2.2 = true
  · have hcap : countRoom (build_schedule rooms items)
        (dateKeyStr slot0.2.1.date) key.2.1 key.2.2 ≤ 2 := by
      refine (hCR (dateKeyStr slot0.2.1.date) key.2.1 key.2.2).2 ?_
      rw [← isAulaName_is_aula]
      exact haula
    have hcond : (isAulaName key.2.2 && decide ((groupOf roomKey key
        (deduplicate_records (readBack (build_schedule rooms items)))).length ≤ 2)) = true := by
      rw [haula, Bool.true_and, decide_eq_true_eq]
      omega
    rw [if_pos hcond]
  · have hcap : countRoom (build_schedule rooms items)
        (dateKeyStr slot0.2.1.date) key.2.1 key.2.2 ≤ 1 := by
      refine (hCR (dateKeyStr slot0.2.1.date) key.2.1 key.2.2).1 ?_
      rw [← isAulaName_is_aula]
      exact Bool.not_eq_true _ ▸ haula
    rw [Bool.not_eq_true] at haula
    have hcond : (isAulaName key.2.2 && decide ((groupOf roomKey key
        (deduplicate_records (readBack (build_schedule rooms items)))).length ≤ 2)) = false := by
      rw [haula, Bool.false_and]
    rw [if_neg (by rw [hcond]; exact Bool.noConfusion), if_neg (by omega)]

open GenSchedule CheckConflicts in
/-- C1 (amended).  The round-trip guarantee holds for the all-generated
scenario: if every input row starts with no pre-filled day, date, shift or
room, class names and roster room names are unchanged by stripping, no two
rows share a nonempty lecturer name (after stripping), and no roster room
carries one of the auditor's blacklist suffixes, then auditing the schedule
written by `build_schedule` reports no class, room, lecturer or blackout
conflicts.  (The spec's unconditional claim is refuted by
`C1_cex_round_trip_fails`.) -/
theorem claim_C1_amended_round_trip (rooms : List Str) (items : List Item)
    (hfree : ∀ it ∈ items, FreeItem it)
    (hkelas : ∀ it ∈ items, pyStrip it.kelas = it.kelas)
    (hdosen : items.Pairwise (fun a b =>
      pyStrip a.nama_dosen = pyStrip b.nama_dosen → pyStrip a.nama_dosen = []))
    (hrooms : ∀ rm ∈ rooms, pyStrip rm = rm)
    (hsuffix : ∀ rm ∈ rooms, ∀ suf ∈ CheckConflicts.BLACKLIST_MON_FRI_SUFFIXES
        ++ CheckConflicts.BLACKLIST_MON_WED_SUFFIXES, pyEndsWith rm suf = false) :
    auditAll (readBack (build_schedule rooms items)) = ([], [], [], []) := by
  unfold auditAll
  dsimp only
  rw [ds_class_empty hfree hkelas hrooms, ds_room_empty hfree hrooms,
    ds_dosen_empty hfree hdosen, ds_blacklist_empty hfree hrooms hsuffix]

open GenSchedule CheckConflicts in
/-- Witness for the amended C1 theorem: a concrete roster and one fully
unscheduled row satisfying every hypothesis. -/
theorem claim_C1_amended_round_trip_witness :
    ((∀ it ∈ [(⟨(r"K").data, (r"M").data, (r"D").data, (r"A").data, [], [], [], [], [],
          (r"30").data⟩ : Item)], FreeItem it)
      ∧ (∀ it ∈ [(⟨(r"K").data, (r"M").data, (r"D").data, (r"A").data, [], [], [], [], [],
          (r"30").data⟩ : Item)], pyStrip it.kelas = it.kelas)
      ∧ (∀ rm ∈ [(r"R1").data], pyStrip rm = rm))
    ∧ auditAll (readBack (build_schedule [(r"R1").data]
        [(⟨(r"K").data, (r"M").data, (r"D").data, (r"A").data, [], [], [], [], [],
          (r"30").data⟩ : Item)])) = ([], [], [], []) :=
  ⟨⟨by decide, by decide, by decide⟩,
   claim_C1_amended_round_trip [(r"R1").data]
     [(⟨(r"K").data, (r"M").data, (r"D").data, (r"A").data, [], [], [], [], [],
        (r"30").data⟩ : Item)]
     (by decide) (by decide) (by decide) (by decide) (by decide)⟩
